import Mathlib

/-!
PageContainer (include/header.hpp): a shallow embedding

The container owns two collections, the raw lines read by `Load` and the
items parsed from them, and two registries of observers that are notified
while a pass runs.

Modelling decisions

* A thrown `std::runtime_error` is recorded in the field `thrown` of the
  outcome of an operation, together with the state reached and the
  notifications delivered up to the throw.
* Observers are external objects reached through pointers: an observer is
  identified by its address (a natural number) and every virtual call on it
  is recorded as an `Event`, in call order.  Callbacks are taken to return
  normally.
* The input stream of `Load` is a stream in good state; it is given by the
  characters that remain to be read.
* `float` is IEEE binary32.  A finite value is carried as the rational it
  denotes (the two zeros are not told apart), the extraction
  `stream >> float` follows the decimal grammar of the GNU C++ library in the
  classic locale and rounds to the nearest binary32 value, ties to even.
* Dereferencing a past-the-end iterator or indexing a vector out of range has
  undefined behaviour and throws nothing; the lookups return `Lookup.undefined`
  there.
* `Load` and `Reload` are embedded each from its own body, loops included; that
  the two loops agree is a lemma.  `LoadTimed` lists the calls of `Load` with
  the members of the container as they are at each call.
* A reachable state is the state after a list of `Call`s on the constructed
  container, each call counted whether it returned or threw.
-/

set_option autoImplicit false

namespace PageContainerSpec

/-! ## binary32 -/

/-- Values of the C++ type `float`. -/
inductive F32 where
  | nan
  | ninf
  | pinf
  | fin (q : ℚ)
  deriving DecidableEq, Repr

namespace F32

/-- The C++ operator `a > b` on floats. -/
def gt : F32 → F32 → Bool
  | nan, _ => false
  | _, nan => false
  | ninf, _ => false
  | pinf, pinf => false
  | pinf, _ => true
  | fin _, pinf => false
  | fin _, ninf => true
  | fin a, fin b => decide (b < a)

/-- The C++ operator `a < b` on floats. -/
def lt (a b : F32) : Bool := gt b a

/-- The C++ operator `a <= b` on floats. -/
def le : F32 → F32 → Bool
  | nan, _ => false
  | _, nan => false
  | ninf, _ => true
  | pinf, pinf => true
  | pinf, _ => false
  | fin _, pinf => true
  | fin _, ninf => false
  | fin a, fin b => decide (a ≤ b)

/-- The largest finite binary32 value, `(2^24 - 1) * 2^104`. -/
def maxFinite : ℚ := ((2 ^ 24 - 1) * 2 ^ 104 : Nat)

/-- The integer part of the binary logarithm of `num / den`, for positive
`num` and `den`. -/
def floorLog2 (num den : Nat) : Int :=
  let e0 : Int := (Nat.log2 num : Int) - (Nat.log2 den : Int)
  if 0 ≤ e0 then
    if den * 2 ^ e0.toNat ≤ num then e0 else e0 - 1
  else
    if den ≤ num * 2 ^ (-e0).toNat then e0 else e0 - 1

/-- The magnitude of the binary32 value nearest to `num / den` (`den` positive),
ties to even; a result of `2^128` or more stands for an overflow. -/
def roundMagnitude (num den : Nat) : ℚ :=
  if num = 0 then 0
  else
    let e : Int := max (floorLog2 num den) (-126)
    let q : Int := e - 23
    let a : Nat := if 0 ≤ q then num else num * 2 ^ (-q).toNat
    let b : Nat := if 0 ≤ q then den * 2 ^ q.toNat else den
    let n : Nat := a / b
    let r : Nat := a % b
    let n1 : Nat := if b < 2 * r ∨ (2 * r = b ∧ n % 2 = 1) then n + 1 else n
    if 0 ≤ q then ((n1 * 2 ^ q.toNat : Nat) : ℚ) else mkRat n1 (2 ^ (-q).toNat)

/-- What `strtof` followed by the range check of `__convert_to_v` stores for the
decimal value `(-1)^neg * mant * 10^exp10`: the nearest binary32 value, and
the largest finite value of that sign on overflow. -/
def ofDecimal (neg : Bool) (mant : Nat) (exp10 : Int) : ℚ :=
  let m : ℚ :=
    if 0 ≤ exp10 then roundMagnitude (mant * 10 ^ exp10.toNat) 1
    else roundMagnitude mant (10 ^ (-exp10).toNat)
  let m1 : ℚ := if maxFinite < m then maxFinite else m
  if neg then -m1 else m1

end F32

/-! ## Items and the extraction of one line -/

/-- The struct `Item`. -/
structure Item where
  id : String
  name : String
  score : F32
  deriving DecidableEq, Repr

/-- A default-constructed `Item`: empty strings and score `0`. -/
def Item.default : Item := ⟨"", "", F32.fin 0⟩

/-- The constant `kMinLines`. -/
def kMinLines : Nat := 10

/-- Whitespace as `std::isspace` tells it in the classic locale. -/
def isspace (c : Char) : Bool :=
  c = ' ' || c = '\t' || c = '\n' || c = Char.ofNat 11 || c = Char.ofNat 12 || c = '\r'

/-- The part of a `std::stringstream` that the extractions read and write: the
unread characters and the two state bits. -/
structure IStream where
  buf : List Char
  eofbit : Bool
  failbit : Bool
  deriving DecidableEq, Repr

/-- The stream built by `std::stringstream stream(line)`. -/
def IStream.ofLine (line : String) : IStream := ⟨line.data, false, false⟩

/-- The member `good()`. -/
def IStream.good (s : IStream) : Bool := !s.eofbit && !s.failbit

/-- The sentry of a formatted extraction: a stream that is not good fails,
otherwise leading whitespace is skipped and reaching the end while skipping
sets both bits.  The flag tells whether the extraction may proceed. -/
def sentry (s : IStream) : IStream × Bool :=
  if s.good then
    let rest := s.buf.dropWhile isspace
    if rest.isEmpty then (⟨[], true, true⟩, false) else (⟨rest, false, false⟩, true)
  else (⟨s.buf, s.eofbit, true⟩, false)

/-- The extraction `stream >> str` into a string holding `str`. -/
def extractString (s : IStream) (str : String) : IStream × String :=
  match sentry s with
  | (s1, false) => (s1, str)
  | (s1, true) =>
    let word := s1.buf.takeWhile (fun c => !isspace c)
    let rest := s1.buf.dropWhile (fun c => !isspace c)
    (⟨rest, rest.isEmpty, word.isEmpty⟩, String.mk word)

/-- The value of a sequence of decimal digits. -/
def digitsValue (ds : List Char) : Nat :=
  ds.foldl (fun acc c => 10 * acc + (c.toNat - '0'.toNat)) 0

/-- An optional sign at the head of the characters. -/
def takeSign : List Char → Bool × List Char
  | '+' :: cs => (false, cs)
  | '-' :: cs => (true, cs)
  | cs => (false, cs)

/-- The digits after a decimal point at the head of the characters, if there
is one. -/
def takeFraction : List Char → List Char × List Char
  | '.' :: cs => (cs.takeWhile Char.isDigit, cs.dropWhile Char.isDigit)
  | cs => ([], cs)

/-- The exponent part at the head of the characters, if there is one: `none`
when no `e` follows, otherwise the sign and the digits accumulated after
it. -/
def takeExponent : List Char → Option (Bool × List Char)
  | 'e' :: cs => some ((takeSign cs).1, (takeSign cs).2.takeWhile Char.isDigit)
  | 'E' :: cs => some ((takeSign cs).1, (takeSign cs).2.takeWhile Char.isDigit)
  | _ => none

/-- The value `num_get` stores for a float field that starts at the head of
the characters: sign, digits, point, digits, exponent are accumulated as far
as they go, and the accumulated text is converted as a whole; text that is
not a complete number gives `0`. -/
def parseFloat (cs : List Char) : ℚ :=
  let (neg, cs1) := takeSign cs
  let intDigits := cs1.takeWhile Char.isDigit
  let (fracDigits, cs2) := takeFraction (cs1.dropWhile Char.isDigit)
  if intDigits.isEmpty && fracDigits.isEmpty then 0
  else
    let mant := digitsValue (intDigits ++ fracDigits)
    match takeExponent cs2 with
    | none => F32.ofDecimal neg mant (-(fracDigits.length : Int))
    | some (eneg, edigits) =>
      if edigits.isEmpty then 0
      else
        let e : Int := digitsValue edigits
        F32.ofDecimal neg mant ((if eneg then -e else e) - (fracDigits.length : Int))

/-- The extraction `stream >> x` into a float holding `x`. -/
def extractFloat (s : IStream) (x : F32) : F32 :=
  match sentry s with
  | (_, false) => x
  | (s1, true) => F32.fin (parseFloat s1.buf)

/-- The three extractions `stream >> item.id >> item.name >> item.score` on a
default-constructed item, for the stream of one raw line. -/
def parseItem (line : String) : Item :=
  let r1 := extractString (IStream.ofLine line) Item.default.id
  let r2 := extractString r1.1 Item.default.name
  ⟨r1.2, r2.2, extractFloat r2.1 Item.default.score⟩

/-! ## The container -/

/-- The address of an object implementing `Observer1`. -/
abbrev Observer1 := Nat

/-- The address of an object implementing `Observer2`. -/
abbrev Observer2 := Nat

/-- One virtual call on an observer, with its arguments. -/
inductive Event where
  | OnDataLoad (observer : Observer1) (old_items new_items : List Item)
  | OnRawDataLoad (observer : Observer1) (old_items new_items : List String)
  | OnLoaded (observer : Observer2) (new_items : List Item)
  | Skip (observer : Observer2) (item : Item)
  deriving DecidableEq, Repr

/-- The data members of `PageContainer` (the log pointer is never used). -/
structure PageContainer where
  list_observer1 : List Observer1
  list_observer2 : List Observer2
  data_ : List Item
  raw_data_ : List String
  deriving DecidableEq, Repr

/-- The container built by the constructors. -/
def PageContainer.new : PageContainer := ⟨[], [], [], []⟩

/-- What a call of `Load` or `Reload` leaves behind: the state of the
container, the calls made on observers in order, and the message of the
exception that ended the call, if one did. -/
structure Outcome where
  state : PageContainer
  trace : List Event
  thrown : Option String
  deriving DecidableEq, Repr

/-- The loop `while (!io.eof()) { getline(io, line); raw_data.push_back(line); }`
on the unread characters of the stream: `line` holds what the running
`getline` has stored so far.  A newline ends the line and the loop goes on;
the end of the characters ends the line, sets `eofbit` and ends the loop. -/
def readLinesFrom : List Char → List Char → List String
  | [], line => [String.mk line]
  | c :: cs, line =>
    if c = '\n' then String.mk line :: readLinesFrom cs [] else readLinesFrom cs (line ++ [c])

/-- The vector `raw_data` that `Load` reads from a stream with the given
content. -/
def readLines (io : String) : List String := readLinesFrom io.data []

/-- The calls `Skip(item)` on every registered `Observer2`, in list order. -/
def skipAll (list_observer2 : List Observer2) (item : Item) : List Event :=
  list_observer2.map (fun o => Event.Skip o item)

/-- The loop `for (const auto& line : raw_data_)` of `Load`, from the state
`data`, `ids` (the set of ids seen) and the calls made so far.  The first
component is `none` when the loop throws "already seen", otherwise the final
`data`. -/
def parseLoop (list_observer2 : List Observer2) (threshold : F32) :
    List String → List Item → List String → List Event → Option (List Item) × List Event
  | [], data, _, trace => (some data, trace)
  | line :: rest, data, ids, trace =>
    let item := parseItem line
    if item.id ∈ ids then (none, trace)
    else if item.score.gt threshold then
      parseLoop list_observer2 threshold rest (data ++ [item]) (item.id :: ids) trace
    else
      parseLoop list_observer2 threshold rest data (item.id :: ids)
        (trace ++ skipAll list_observer2 item)

/-- The member `Load(io, threshold)`. -/
def Load (c : PageContainer) (io : String) (threshold : F32) : Outcome :=
  let raw_data := readLines io
  if raw_data.length < kMinLines then ⟨c, [], some "too small input stream"⟩
  else
    let trace0 := c.list_observer1.map (fun o => Event.OnRawDataLoad o c.raw_data_ raw_data)
    let c1 : PageContainer := { c with raw_data_ := raw_data }
    match parseLoop c1.list_observer2 threshold c1.raw_data_ [] [] trace0 with
    | (none, trace1) => ⟨c1, trace1, some "already seen"⟩
    | (some data, trace1) =>
      if data.length < kMinLines then ⟨c1, trace1, some "oops"⟩
      else
        ⟨{ c1 with data_ := data },
          trace1 ++ c1.list_observer1.map (fun o => Event.OnDataLoad o c1.data_ data)
            ++ c1.list_observer2.map (fun o => Event.OnLoaded o data),
          none⟩

/-- The loop `for (const auto& line : raw_data_)` of `Reload`, with the same
state and result as `parseLoop`. -/
def reloadLoop (list_observer2 : List Observer2) (threshold : F32) :
    List String → List Item → List String → List Event → Option (List Item) × List Event
  | [], data, _, trace => (some data, trace)
  | line :: rest, data, ids, trace =>
    let item := parseItem line
    if item.id ∈ ids then (none, trace)
    else if item.score.gt threshold then
      reloadLoop list_observer2 threshold rest (data ++ [item]) (item.id :: ids) trace
    else
      reloadLoop list_observer2 threshold rest data (item.id :: ids)
        (trace ++ skipAll list_observer2 item)

/-- The member `Reload(threshold)`. -/
def Reload (c : PageContainer) (threshold : F32) : Outcome :=
  match reloadLoop c.list_observer2 threshold c.raw_data_ [] [] [] with
  | (none, trace1) => ⟨c, trace1, some "already seen"⟩
  | (some data, trace1) =>
    if data.length < kMinLines then ⟨c, trace1, some "oops"⟩
    else
      ⟨{ c with data_ := data },
        trace1 ++ c.list_observer1.map (fun o => Event.OnDataLoad o c.data_ data)
          ++ c.list_observer2.map (fun o => Event.OnLoaded o data),
        none⟩

/-- The result of a lookup: the item returned, the message of an exception, or
undefined behaviour. -/
inductive Lookup where
  | returns (item : Item)
  | throws (what : String)
  | undefined
  deriving DecidableEq, Repr

/-- The member `ByIndex(i)`: `data_[i]`, with no range check. -/
def ByIndex (c : PageContainer) (i : Nat) : Lookup :=
  match c.data_[i]? with
  | some item => Lookup.returns item
  | none => Lookup.undefined

/-- The member `ById(id)`: `std::find_if` for the first item with that id,
then `*it` with no comparison against the end iterator. -/
def ById (c : PageContainer) (id : String) : Lookup :=
  match c.data_.find? (fun i => decide (id = i.id)) with
  | some item => Lookup.returns item
  | none => Lookup.undefined

/-- The member `Attach(Observer1*)`. -/
def Attach1 (c : PageContainer) (observer : Observer1) : PageContainer :=
  { c with list_observer1 := c.list_observer1 ++ [observer] }

/-- The member `Detach(Observer1*)`: `std::list::remove` erases every element
equal to the pointer. -/
def Detach1 (c : PageContainer) (observer : Observer1) : PageContainer :=
  { c with list_observer1 := c.list_observer1.filter (fun o => o != observer) }

/-- The member `Attach(Observer2*)`. -/
def Attach2 (c : PageContainer) (observer : Observer2) : PageContainer :=
  { c with list_observer2 := c.list_observer2 ++ [observer] }

/-- The member `Detach(Observer2*)`. -/
def Detach2 (c : PageContainer) (observer : Observer2) : PageContainer :=
  { c with list_observer2 := c.list_observer2.filter (fun o => o != observer) }

/-- The member `data_size()`. -/
def data_size (c : PageContainer) : Nat := c.data_.length

/-! ## What a pass computes -/

/-- The ids of the items extracted from the lines, in line order. -/
def lineIds (lines : List String) : List String :=
  lines.map (fun l => (parseItem l).id)

/-- The items of the lines whose score exceeds the threshold, in line order. -/
def accepted (threshold : F32) (lines : List String) : List Item :=
  (lines.map parseItem).filter (fun it => it.score.gt threshold)

/-- The items of the lines whose score does not exceed the threshold, in line
order. -/
def rejected (threshold : F32) (lines : List String) : List Item :=
  (lines.map parseItem).filter (fun it => !it.score.gt threshold)

/-- A pass over the raw lines of `c` after the calls `trace`: the scan, the size
check on the accepted items, the two final notifications and the assignment
of `data_`.  `Load`, once `raw_data_` is assigned, and `Reload` are shown
below to be this pass. -/
def parseAndCommit (c : PageContainer) (threshold : F32) (trace : List Event) : Outcome :=
  match parseLoop c.list_observer2 threshold c.raw_data_ [] [] trace with
  | (none, trace1) => ⟨c, trace1, some "already seen"⟩
  | (some data, trace1) =>
    if data.length < kMinLines then ⟨c, trace1, some "oops"⟩
    else
      ⟨{ c with data_ := data },
        trace1 ++ c.list_observer1.map (fun o => Event.OnDataLoad o c.data_ data)
          ++ c.list_observer2.map (fun o => Event.OnLoaded o data),
        none⟩

/-- The calls that tell observers about the outcome of a whole pass. -/
def Event.isFinal : Event → Bool
  | Event.OnDataLoad _ _ _ => true
  | Event.OnLoaded _ _ => true
  | _ => false

/-- The calls an `Observer2` object receives, in order. -/
def callsOn2 (o : Observer2) (trace : List Event) : List Event :=
  trace.filter (fun e =>
    match e with
    | Event.OnLoaded o1 _ => decide (o1 = o)
    | Event.Skip o1 _ => decide (o1 = o)
    | _ => false)

/-! ## Sample inputs and further views -/

/-- The ten lines `id{n} name{n} {n}.0` for `n` from 1 to 10, separated by
newlines. -/
def tenLines : String :=
  "id1 name1 1.0\nid2 name2 2.0\nid3 name3 3.0\nid4 name4 4.0\nid5 name5 5.0\nid6 name6 6.0\nid7 name7 7.0\nid8 name8 8.0\nid9 name9 9.0\nid10 name10 10.0"

/-- The item `id{n} name{n} {n}.0`. -/
def sampleItem (n : Nat) : Item :=
  ⟨"id" ++ toString n, "name" ++ toString n, F32.fin n⟩

/-- The ten lines followed by a line that repeats the id of the third. -/
def repeatedIdLines : String := tenLines ++ "\nid3 other 7.5"

/-- The calls `Skip`. -/
def Event.isSkip : Event → Bool
  | Event.Skip _ _ => true
  | _ => false

/-- Ten lines of which the first five are a blank line, a line with one field,
a line with two fields, a line whose third field is not a number, and a line
with a fourth field. -/
def malformedLines : String :=
  "\nid1\nid2 name2\nid3 name3 x\nid4 name4 4.0 extra\nid5 name5 5.0\nid6 name6 6.0\nid7 name7 7.0\nid8 name8 8.0\nid9 name9 9.0"

/-- The items of the lines with `score <= threshold`, in line order. -/
def notAbove (threshold : F32) (lines : List String) : List Item :=
  (lines.map parseItem).filter (fun it => it.score.le threshold)

/-- The ten sample lines followed by the line `id0 name0 0.0`. -/
def elevenLines : String := tenLines ++ "\nid0 name0 0.0"

/-! ## Sequences of calls, calls with the state they see, splitting -/

/-- A call of one of the members that change the container. -/
inductive Call where
  | load (io : String) (threshold : F32)
  | reload (threshold : F32)
  | attach1 (observer : Observer1)
  | detach1 (observer : Observer1)
  | attach2 (observer : Observer2)
  | detach2 (observer : Observer2)
  deriving DecidableEq, Repr

/-- The container after a call, whether the call returned or threw. -/
def Call.run (c : PageContainer) : Call → PageContainer
  | Call.load io threshold => (Load c io threshold).state
  | Call.reload threshold => (Reload c threshold).state
  | Call.attach1 observer => Attach1 c observer
  | Call.detach1 observer => Detach1 c observer
  | Call.attach2 observer => Attach2 c observer
  | Call.detach2 observer => Detach2 c observer

/-- The container after the calls, made one after the other. -/
def runCalls (c : PageContainer) (calls : List Call) : PageContainer :=
  calls.foldl Call.run c

/-- The calls `OnRawDataLoad`. -/
def Event.isRawDataLoad : Event → Bool
  | Event.OnRawDataLoad _ _ _ => true
  | _ => false

/-- The calls `OnDataLoad`. -/
def Event.isDataLoad : Event → Bool
  | Event.OnDataLoad _ _ _ => true
  | _ => false

/-- The calls `OnLoaded`. -/
def Event.isLoaded : Event → Bool
  | Event.OnLoaded _ _ => true
  | _ => false

/-- The calls that `Load` makes on observers, each with the members of the
container as they are when the call is made: the `OnRawDataLoad` calls come
before the assignment of `raw_data_`, all later calls after it and before the
assignment of `data_`, which is the last statement. -/
def LoadTimed (c : PageContainer) (io : String) (threshold : F32) :
    List (Event × PageContainer) :=
  let raw_data := readLines io
  if raw_data.length < kMinLines then []
  else
    let calls0 := c.list_observer1.map
      (fun o => (Event.OnRawDataLoad o c.raw_data_ raw_data, c))
    let c1 : PageContainer := { c with raw_data_ := raw_data }
    match parseLoop c1.list_observer2 threshold c1.raw_data_ [] [] [] with
    | (none, skips) => calls0 ++ skips.map (fun e => (e, c1))
    | (some data, skips) =>
      if data.length < kMinLines then calls0 ++ skips.map (fun e => (e, c1))
      else
        calls0 ++ skips.map (fun e => (e, c1))
          ++ c1.list_observer1.map (fun o => (Event.OnDataLoad o c1.data_ data, c1))
          ++ c1.list_observer2.map (fun o => (Event.OnLoaded o data, c1))

/-- The text split at every newline character: the pieces between the
newlines, in order, one more than there are newlines. -/
def splitAtNewlines (io : String) : List String :=
  (io.data.splitOn '\n').map String.mk

/-- Nine records, each ended by a newline. -/
def nineRecords : String :=
  "id1 name1 1.0\nid2 name2 2.0\nid3 name3 3.0\nid4 name4 4.0\nid5 name5 5.0\nid6 name6 6.0\nid7 name7 7.0\nid8 name8 8.0\nid9 name9 9.0\n"

/-- Twelve lines with low scores in which `idb` is repeated on the third line
and `ida` on the fourth. -/
def twoRepeatsLines : String :=
  "ida na 1\nidb nb 1\nidb nc 1\nida nd 1\nid5 n 1\nid6 n 1\nid7 n 1\nid8 n 1\nid9 n 1\nid10 n 1\nid11 n 1\nid12 n 1"

/-! ## Fields of a line -/

/-- The characters are all whitespace (there may be none). -/
def isBlank (cs : List Char) : Bool := cs.all isspace

/-- The characters form a field: there is at least one and none is whitespace. -/
def isField (cs : List Char) : Bool := !cs.isEmpty && cs.all (fun ch => !isspace ch)

/-- The characters are what may follow a field: nothing, or text that begins
with whitespace. -/
def startsBlank : List Char → Bool
  | [] => true
  | ch :: _ => isspace ch

/-! ## The loop -/

theorem parseLoop_of_nodup (l2 : List Observer2) (t : F32) :
    ∀ (lines : List String) (data : List Item) (ids : List String) (tr : List Event),
      (lineIds lines).Nodup → (∀ x ∈ lineIds lines, x ∉ ids) →
      parseLoop l2 t lines data ids tr
        = (some (data ++ accepted t lines), tr ++ (rejected t lines).flatMap (skipAll l2)) := by
  intro lines
  induction lines with
  | nil => intro data ids tr _ _; simp [parseLoop, accepted, rejected]
  | cons line rest ih =>
    intro data ids tr hnd hdisj
    have hnd1 : (parseItem line).id ∉ lineIds rest ∧ (lineIds rest).Nodup := by
      simpa [lineIds] using hnd
    have hhead : (parseItem line).id ∉ ids := hdisj _ (by simp [lineIds])
    have hdisj1 : ∀ x ∈ lineIds rest, x ∉ (parseItem line).id :: ids := by
      intro x hx hmem
      rcases List.mem_cons.1 hmem with h | h
      · exact hnd1.1 (h ▸ hx)
      · exact hdisj x (by simp only [lineIds, List.map_cons, List.mem_cons]; exact Or.inr hx) h
    by_cases hgt : (parseItem line).score.gt t = true
    · simp [parseLoop, hhead, hgt, ih _ _ _ hnd1.2 hdisj1, accepted, rejected]
    · simp [parseLoop, hhead, hgt, ih _ _ _ hnd1.2 hdisj1, accepted, rejected]

theorem parseLoop_of_dup (l2 : List Observer2) (t : F32) :
    ∀ (lines : List String) (data : List Item) (ids : List String) (tr : List Event),
      ¬ ((lineIds lines).Nodup ∧ ∀ x ∈ lineIds lines, x ∉ ids) →
      (parseLoop l2 t lines data ids tr).1 = none := by
  intro lines
  induction lines with
  | nil => intro data ids tr h; exact absurd (by simp [lineIds]) h
  | cons line rest ih =>
    intro data ids tr h
    by_cases hhead : (parseItem line).id ∈ ids
    · simp [parseLoop, hhead]
    · have h1 : ¬ ((lineIds rest).Nodup ∧ ∀ x ∈ lineIds rest, x ∉ (parseItem line).id :: ids) := by
        rintro ⟨hnd, hdisj⟩
        apply h
        refine ⟨?_, ?_⟩
        · simp only [lineIds, List.map_cons, List.nodup_cons]
          exact ⟨fun hm => hdisj _ hm (List.mem_cons_self _ _), hnd⟩
        · intro x hx
          simp only [lineIds, List.map_cons, List.mem_cons] at hx
          rcases hx with rfl | hx
          · exact hhead
          · exact fun hm => hdisj x hx (List.mem_cons_of_mem _ hm)
      by_cases hgt : (parseItem line).score.gt t = true
      · simp [parseLoop, hhead, hgt, ih _ _ _ h1]
      · simp [parseLoop, hhead, hgt, ih _ _ _ h1]

/-! ## The pass after the raw lines are in place -/

theorem parseAndCommit_of_dup (c : PageContainer) (t : F32) (tr : List Event)
    (h : ¬ (lineIds c.raw_data_).Nodup) :
    (parseAndCommit c t tr).thrown = some "already seen" ∧ (parseAndCommit c t tr).state = c := by
  have h1 := parseLoop_of_dup c.list_observer2 t c.raw_data_ [] [] tr (fun hh => h hh.1)
  unfold parseAndCommit
  generalize parseLoop c.list_observer2 t c.raw_data_ [] [] tr = r at h1
  obtain ⟨d, tr1⟩ := r
  simp only at h1
  subst h1
  simp

theorem parseAndCommit_of_nodup (c : PageContainer) (t : F32) (tr : List Event)
    (h : (lineIds c.raw_data_).Nodup) :
    parseAndCommit c t tr =
      if (accepted t c.raw_data_).length < kMinLines then
        ⟨c, tr ++ (rejected t c.raw_data_).flatMap (skipAll c.list_observer2), some "oops"⟩
      else
        ⟨{ c with data_ := accepted t c.raw_data_ },
          tr ++ (rejected t c.raw_data_).flatMap (skipAll c.list_observer2)
            ++ c.list_observer1.map (fun o => Event.OnDataLoad o c.data_ (accepted t c.raw_data_))
            ++ c.list_observer2.map (fun o => Event.OnLoaded o (accepted t c.raw_data_)),
          none⟩ := by
  unfold parseAndCommit
  rw [parseLoop_of_nodup c.list_observer2 t c.raw_data_ [] [] tr h (by simp)]
  simp

theorem parseAndCommit_ok_iff (c : PageContainer) (t : F32) (tr : List Event) :
    (parseAndCommit c t tr).thrown = none ↔
      (lineIds c.raw_data_).Nodup ∧ kMinLines ≤ (accepted t c.raw_data_).length := by
  by_cases h : (lineIds c.raw_data_).Nodup
  · rw [parseAndCommit_of_nodup c t tr h]
    by_cases hl : (accepted t c.raw_data_).length < kMinLines
    · simp [hl, h]
    · simp [hl, h]; omega
  · simp [(parseAndCommit_of_dup c t tr h).1, h]

theorem parseAndCommit_ok (c : PageContainer) (t : F32) (tr : List Event)
    (h : (parseAndCommit c t tr).thrown = none) :
    parseAndCommit c t tr =
      ⟨{ c with data_ := accepted t c.raw_data_ },
        tr ++ (rejected t c.raw_data_).flatMap (skipAll c.list_observer2)
          ++ c.list_observer1.map (fun o => Event.OnDataLoad o c.data_ (accepted t c.raw_data_))
          ++ c.list_observer2.map (fun o => Event.OnLoaded o (accepted t c.raw_data_)),
        none⟩ := by
  have h1 := (parseAndCommit_ok_iff c t tr).1 h
  rw [parseAndCommit_of_nodup c t tr h1.1, if_neg (by omega)]

theorem Load_small (c : PageContainer) (io : String) (t : F32)
    (h : (readLines io).length < kMinLines) :
    Load c io t = ⟨c, [], some "too small input stream"⟩ := by
  simp [Load, h]

theorem Load_large (c : PageContainer) (io : String) (t : F32)
    (h : kMinLines ≤ (readLines io).length) :
    Load c io t =
      parseAndCommit { c with raw_data_ := readLines io } t
        (c.list_observer1.map (fun o => Event.OnRawDataLoad o c.raw_data_ (readLines io))) := by
  unfold Load parseAndCommit
  simp only [Nat.not_lt.2 h, if_false]

theorem reloadLoop_eq_parseLoop (l2 : List Observer2) (t : F32) :
    ∀ (lines : List String) (data : List Item) (ids : List String) (tr : List Event),
      reloadLoop l2 t lines data ids tr = parseLoop l2 t lines data ids tr := by
  intro lines
  induction lines with
  | nil => intro data ids tr; rfl
  | cons line rest ih =>
    intro data ids tr
    simp only [reloadLoop, parseLoop, ih]

theorem Reload_eq (c : PageContainer) (t : F32) : Reload c t = parseAndCommit c t [] := by
  unfold Reload parseAndCommit
  rw [reloadLoop_eq_parseLoop]

theorem accepted_ids_nodup (t : F32) (lines : List String) (h : (lineIds lines).Nodup) :
    ((accepted t lines).map Item.id).Nodup := by
  have hsub : List.Sublist ((accepted t lines).map Item.id) (lineIds lines) := by
    have h1 : List.Sublist (accepted t lines) (lines.map parseItem) := List.filter_sublist _
    have h2 := h1.map Item.id
    simpa [lineIds, List.map_map] using h2
  exact hsub.nodup h

theorem accepted_gt (t : F32) (lines : List String) :
    ∀ it ∈ accepted t lines, it.score.gt t = true := by
  intro it hit
  simpa using (List.mem_filter.1 hit).2

/-! ## Successful passes -/

/-- C1: when `Load(io, t)` or `Reload(t)` returns without throwing, the ids of
the resulting `data_` are pairwise distinct and every item of it has a score
strictly greater than `t`. -/
theorem C1_entries_unique_and_above_threshold (c : PageContainer) (io : String) (t : F32)
    (out : Outcome) (hcall : out = Load c io t ∨ out = Reload c t)
    (hok : out.thrown = none) :
    (out.state.data_.map Item.id).Nodup ∧ ∀ it ∈ out.state.data_, it.score.gt t = true := by
  rcases hcall with rfl | rfl
  · by_cases hlen : (readLines io).length < kMinLines
    · rw [Load_small c io t hlen] at hok
      simp at hok
    · rw [Load_large c io t (Nat.not_lt.1 hlen)] at hok ⊢
      have hnd := ((parseAndCommit_ok_iff _ _ _).1 hok).1
      rw [parseAndCommit_ok _ _ _ hok]
      exact ⟨accepted_ids_nodup t _ hnd, accepted_gt t _⟩
  · rw [Reload_eq] at hok ⊢
    have hnd := ((parseAndCommit_ok_iff _ _ _).1 hok).1
    rw [parseAndCommit_ok _ _ _ hok]
    exact ⟨accepted_ids_nodup t _ hnd, accepted_gt t _⟩

/-- C1 at the ten sample lines with threshold 0, where `Load` succeeds. -/
theorem C1_entries_unique_and_above_threshold_witness :
    (Load PageContainer.new tenLines (F32.fin 0)).thrown = none ∧
      (((Load PageContainer.new tenLines (F32.fin 0)).state.data_.map Item.id).Nodup ∧
        ∀ it ∈ (Load PageContainer.new tenLines (F32.fin 0)).state.data_,
          it.score.gt (F32.fin 0) = true) :=
  ⟨by decide!,
    C1_entries_unique_and_above_threshold PageContainer.new tenLines (F32.fin 0) _
      (Or.inl rfl) (by decide!)⟩

/-! ## Failing passes -/

/-- C2: for an input of fewer than 10 lines `Load` throws "too small input
stream", the container is left as it was (raw lines, items and both
registries) and no observer is called. -/
theorem C2_too_small_input (c : PageContainer) (io : String) (t : F32)
    (hsmall : (readLines io).length < 10) :
    (Load c io t).thrown = some "too small input stream" ∧
      (Load c io t).state.raw_data_ = c.raw_data_ ∧
      (Load c io t).state.data_ = c.data_ ∧
      (Load c io t).state = c ∧
      (Load c io t).trace = [] := by
  rw [Load_small c io t hsmall]
  simp

/-- C2 at a three-line input, on a container with one observer of each kind. -/
theorem C2_too_small_input_witness :
    (readLines "a b 1\nc d 2\ne f 3").length < 10 ∧
      (Load ⟨[1], [2], [], []⟩ "a b 1\nc d 2\ne f 3" (F32.fin 0)).thrown
        = some "too small input stream" ∧
      (Load ⟨[1], [2], [], []⟩ "a b 1\nc d 2\ne f 3" (F32.fin 0)).trace = [] :=
  ⟨by decide,
    (C2_too_small_input ⟨[1], [2], [], []⟩ "a b 1\nc d 2\ne f 3" (F32.fin 0) (by decide)).1,
    (C2_too_small_input ⟨[1], [2], [], []⟩ "a b 1\nc d 2\ne f 3" (F32.fin 0) (by decide)).2.2.2.2⟩

/-- C3: for an input of at least 10 lines in which two different lines carry
the same id, `Load` throws "already seen", `data_` keeps its value from before
the call and `raw_data_` holds the lines of the new input.  (The lines need not
be well formed.) -/
theorem C3_duplicate_id (c : PageContainer) (io : String) (t : F32)
    (hlen : 10 ≤ (readLines io).length)
    (hdup : ∃ (i j : Nat) (a b : String), i < j ∧ (readLines io)[i]? = some a ∧
      (readLines io)[j]? = some b ∧ (parseItem a).id = (parseItem b).id) :
    (Load c io t).thrown = some "already seen" ∧
      (Load c io t).state.data_ = c.data_ ∧
      (Load c io t).state.raw_data_ = readLines io := by
  have hnd : ¬ (lineIds (readLines io)).Nodup := by
    obtain ⟨i, j, a, b, hij, ha, hb, hab⟩ := hdup
    intro hnd
    have hj : j < (readLines io).length := (List.getElem?_eq_some_iff.1 hb).1
    refine List.nodup_iff_getElem?_ne_getElem?.1 hnd i j hij (by simpa [lineIds] using hj) ?_
    simp [lineIds, List.getElem?_map, ha, hb, hab]
  rw [Load_large c io t hlen]
  obtain ⟨h1, h2⟩ := parseAndCommit_of_dup { c with raw_data_ := readLines io } t
    (c.list_observer1.map (fun o => Event.OnRawDataLoad o c.raw_data_ (readLines io))) hnd
  rw [h2]
  exact ⟨h1, rfl, rfl⟩

/-- C3 at the ten sample lines followed by a line repeating `id3`. -/
theorem C3_duplicate_id_witness :
    (Load PageContainer.new repeatedIdLines (F32.fin 0)).thrown = some "already seen" ∧
      (Load PageContainer.new repeatedIdLines (F32.fin 0)).state.data_ = [] ∧
      (Load PageContainer.new repeatedIdLines (F32.fin 0)).state.raw_data_
        = readLines repeatedIdLines :=
  C3_duplicate_id PageContainer.new repeatedIdLines (F32.fin 0) (by decide)
    ⟨2, 10, "id3 name3 3.0", "id3 other 7.5", by decide, by decide, by decide, by decide⟩

/-! ## The end-to-end example -/

theorem readLines_tenLines :
    readLines tenLines =
      ["id1 name1 1.0", "id2 name2 2.0", "id3 name3 3.0", "id4 name4 4.0", "id5 name5 5.0",
        "id6 name6 6.0", "id7 name7 7.0", "id8 name8 8.0", "id9 name9 9.0",
        "id10 name10 10.0"] := by
  decide

theorem tenLines_parsed :
    (readLines tenLines).map parseItem = (List.range' 1 10).map sampleItem := by
  decide!

/-- C4, refuted as stated: on a container with one registered `Observer2`, `Load`
of the ten sample lines with threshold 5 does not succeed; it throws "oops"
and `data_` is not the list of the five items for `n = 6..10` (it stays
empty). -/
theorem C4_counterexample :
    (Load (Attach2 PageContainer.new 7) tenLines (F32.fin 5)).thrown = some "oops" ∧
      (Load (Attach2 PageContainer.new 7) tenLines (F32.fin 5)).state.data_
        ≠ (List.range' 6 5).map sampleItem := by
  decide!

/-- C4, amended: for the ten sample lines and threshold 5 the accepted items
are the five for `n = 6..10`, fewer than `kMinLines`, so on every container
`Load` throws "oops"; `raw_data_` holds the ten lines, `data_` keeps its old
value, and after the `OnRawDataLoad` calls the only calls made are `Skip` for
`n = 1, 2, 3, 4, 5` in that order, each to all registered `Observer2` in list
order; no `OnDataLoad` and no `OnLoaded` is delivered. -/
theorem C4_example_fails_with_oops (c : PageContainer) :
    accepted (F32.fin 5) (readLines tenLines) = (List.range' 6 5).map sampleItem ∧
      (Load c tenLines (F32.fin 5)).thrown = some "oops" ∧
      (Load c tenLines (F32.fin 5)).state.data_ = c.data_ ∧
      (Load c tenLines (F32.fin 5)).state.raw_data_ = readLines tenLines ∧
      (Load c tenLines (F32.fin 5)).trace =
        c.list_observer1.map (fun o => Event.OnRawDataLoad o c.raw_data_ (readLines tenLines))
          ++ ((List.range' 1 5).map sampleItem).flatMap (skipAll c.list_observer2) := by
  have hacc : accepted (F32.fin 5) (readLines tenLines) = (List.range' 6 5).map sampleItem := by
    decide!
  have hrej : rejected (F32.fin 5) (readLines tenLines) = (List.range' 1 5).map sampleItem := by
    decide!
  have hlen : kMinLines ≤ (readLines tenLines).length := by decide
  have hnd : (lineIds (readLines tenLines)).Nodup := by decide
  have hshort : (accepted (F32.fin 5) (readLines tenLines)).length < kMinLines := by
    rw [hacc]; decide
  rw [Load_large c tenLines (F32.fin 5) hlen, parseAndCommit_of_nodup _ _ _ hnd]
  rw [if_pos hshort, hrej]
  exact ⟨hacc, rfl, rfl, rfl, rfl⟩

/-! ## Too few accepted items -/

theorem filter_isSkip_skips (l2 : List Observer2) (items : List Item) :
    (items.flatMap (skipAll l2)).filter Event.isSkip = items.flatMap (skipAll l2) := by
  apply List.filter_eq_self.2
  intro e he
  obtain ⟨it, _, hit⟩ := List.mem_flatMap.1 he
  obtain ⟨o, _, rfl⟩ := List.mem_map.1 hit
  rfl

theorem isFinal_skips (l2 : List Observer2) (items : List Item) :
    ∀ e ∈ items.flatMap (skipAll l2), Event.isFinal e = false := by
  intro e he
  obtain ⟨it, _, hit⟩ := List.mem_flatMap.1 he
  obtain ⟨o, _, rfl⟩ := List.mem_map.1 hit
  rfl

theorem countP_gt_eq (t : F32) (lines : List String) :
    lines.countP (fun l => (parseItem l).score.gt t) = (accepted t lines).length := by
  simp [accepted, List.countP_eq_length_filter, List.filter_map, Function.comp_def]

/-- What the pass leaves when the ids of the lines are distinct and fewer than
`kMinLines` items are accepted. -/
theorem parseAndCommit_oops (c : PageContainer) (t : F32) (tr : List Event)
    (h : (lineIds c.raw_data_).Nodup) :
    ((parseAndCommit c t tr).thrown = some "oops" ↔ (accepted t c.raw_data_).length < kMinLines) ∧
      ((parseAndCommit c t tr).thrown = some "oops" →
        parseAndCommit c t tr =
          ⟨c, tr ++ (rejected t c.raw_data_).flatMap (skipAll c.list_observer2), some "oops"⟩) := by
  rw [parseAndCommit_of_nodup c t tr h]
  by_cases hl : (accepted t c.raw_data_).length < kMinLines
  · simp [hl]
  · simp [hl]

/-- C5: when the ids of the raw lines that the pass scans are pairwise distinct
(the lines of `raw_data_` for `Reload`, the at least 10 lines of the input for
`Load`), the call throws "oops" if and only if fewer than 10 of these lines
have a score above `t`; in that case `data_` keeps its old value, no
`OnDataLoad` and no `OnLoaded` is delivered, and the `Skip` calls made are
those of the scan, one round per rejected line in line order. -/
theorem C5_insufficient_accepted (c : PageContainer) (t : F32) (lines : List String)
    (out : Outcome)
    (hcall : (out = Reload c t ∧ lines = c.raw_data_) ∨
      (∃ io, out = Load c io t ∧ lines = readLines io ∧ 10 ≤ lines.length))
    (hids : (lineIds lines).Nodup) :
    (out.thrown = some "oops" ↔ lines.countP (fun l => (parseItem l).score.gt t) < 10) ∧
      (out.thrown = some "oops" →
        out.state.data_ = c.data_ ∧
        (∀ e ∈ out.trace, Event.isFinal e = false) ∧
        out.trace.filter Event.isSkip = (rejected t lines).flatMap (skipAll c.list_observer2)) := by
  rw [countP_gt_eq]
  rcases hcall with ⟨rfl, rfl⟩ | ⟨io, rfl, rfl, hlen⟩
  · obtain ⟨h1, h2⟩ := parseAndCommit_oops c t [] hids
    rw [Reload_eq]
    refine ⟨h1, fun hoops => ?_⟩
    rw [h2 hoops]
    refine ⟨rfl, ?_, ?_⟩
    · simpa using isFinal_skips c.list_observer2 (rejected t c.raw_data_)
    · simpa using filter_isSkip_skips c.list_observer2 (rejected t c.raw_data_)
  · obtain ⟨h1, h2⟩ := parseAndCommit_oops { c with raw_data_ := readLines io } t
      (c.list_observer1.map (fun o => Event.OnRawDataLoad o c.raw_data_ (readLines io))) hids
    rw [Load_large c io t hlen]
    refine ⟨h1, fun hoops => ?_⟩
    rw [h2 hoops]
    refine ⟨rfl, ?_, ?_⟩
    · intro e he
      rcases List.mem_append.1 he with he | he
      · obtain ⟨o, _, rfl⟩ := List.mem_map.1 he
        rfl
      · exact isFinal_skips c.list_observer2 _ e he
    · have hpre : (c.list_observer1.map
          (fun o => Event.OnRawDataLoad o c.raw_data_ (readLines io))).filter Event.isSkip = [] := by
        apply List.filter_eq_nil_iff.2
        intro e he
        obtain ⟨o, _, rfl⟩ := List.mem_map.1 he
        simp [Event.isSkip]
      simp only [List.filter_append, hpre, List.nil_append]
      exact filter_isSkip_skips c.list_observer2 _

/-- C5 at the ten sample lines with threshold 5: `Load` throws "oops". -/
theorem C5_insufficient_accepted_witness :
    (lineIds (readLines tenLines)).Nodup ∧
      ((Load (Attach2 PageContainer.new 7) tenLines (F32.fin 5)).thrown = some "oops" ↔
        (readLines tenLines).countP (fun l => (parseItem l).score.gt (F32.fin 5)) < 10) :=
  ⟨by decide,
    (C5_insufficient_accepted (Attach2 PageContainer.new 7) (F32.fin 5) (readLines tenLines)
      (Load (Attach2 PageContainer.new 7) tenLines (F32.fin 5))
      (Or.inr ⟨tenLines, rfl, rfl, by decide⟩) (by decide)).1⟩

/-! ## Lookups -/

/-- C6, refuted as stated: on a freshly constructed container no item has the id
`id1`, and on the container loaded with the ten sample lines no item has the id
`id11`; in both cases `ById` throws nothing, it dereferences the end iterator,
whose result is undefined. -/
theorem C6_counterexample :
    (∀ it ∈ PageContainer.new.data_, it.id ≠ "id1") ∧
      ById PageContainer.new "id1" = Lookup.undefined ∧
      (∀ what, ById PageContainer.new "id1" ≠ Lookup.throws what) ∧
      (Load PageContainer.new tenLines (F32.fin 0)).thrown = none ∧
      (∀ it ∈ (Load PageContainer.new tenLines (F32.fin 0)).state.data_, it.id ≠ "id11") ∧
      (∀ what,
        ById (Load PageContainer.new tenLines (F32.fin 0)).state "id11" ≠ Lookup.throws what) := by
  have h1 : ById PageContainer.new "id1" = Lookup.undefined := by decide
  have h2 : ById (Load PageContainer.new tenLines (F32.fin 0)).state "id11"
      = Lookup.undefined := by decide!
  refine ⟨by decide, h1, ?_, by decide!, by decide!, ?_⟩
  · intro what h
    rw [h1] at h
    cases h
  · intro what h
    rw [h2] at h
    cases h

/-- C6, amended: `ById` never throws.  When some item of `data_` has the id, it
returns the first item with that id; when no item has the id it makes no
check and the result of the call is undefined. -/
theorem C6_ById_returns_first_match (c : PageContainer) (id : String) :
    (∀ what, ById c id ≠ Lookup.throws what) ∧
      ((∃ it ∈ c.data_, it.id = id) →
        ∃ pre it post, c.data_ = pre ++ it :: post ∧ it.id = id ∧ (∀ x ∈ pre, x.id ≠ id) ∧
          ById c id = Lookup.returns it) ∧
      ((∀ it ∈ c.data_, it.id ≠ id) → ById c id = Lookup.undefined) := by
  refine ⟨?_, ?_, ?_⟩
  · intro what
    unfold ById
    cases c.data_.find? (fun i => decide (id = i.id)) <;> simp
  · rintro ⟨it0, hmem, hid⟩
    unfold ById
    generalize c.data_ = data at hmem
    induction data with
    | nil => cases hmem
    | cons x xs ih =>
      by_cases hx : id = x.id
      · exact ⟨[], x, xs, rfl, hx.symm, by simp, by simp [List.find?, hx]⟩
      · have hmem1 : it0 ∈ xs := by
          rcases List.mem_cons.1 hmem with h | h
          · exact absurd (h ▸ hid.symm) hx
          · exact h
        obtain ⟨pre, it, post, h1, h2, h3, h4⟩ := ih hmem1
        refine ⟨x :: pre, it, post, by simp [h1], h2, ?_, ?_⟩
        · intro y hy
          rcases List.mem_cons.1 hy with rfl | hy
          · exact fun h => hx h.symm
          · exact h3 y hy
        · simpa [List.find?, hx] using h4
  · intro hnone
    unfold ById
    have : c.data_.find? (fun i => decide (id = i.id)) = none := by
      apply List.find?_eq_none.2
      intro x hx
      simpa using fun h => hnone x hx h.symm
    simp [this]

/-- C7, refuted as stated: `ByIndex(0)` on a freshly constructed container and
`ByIndex(10)` on the container loaded with the ten sample lines, both out of
range, throw nothing; `data_[i]` is evaluated past the end, whose result is
undefined. -/
theorem C7_counterexample :
    PageContainer.new.data_.length ≤ 0 ∧
      ByIndex PageContainer.new 0 = Lookup.undefined ∧
      (∀ what, ByIndex PageContainer.new 0 ≠ Lookup.throws what) ∧
      (Load PageContainer.new tenLines (F32.fin 0)).thrown = none ∧
      (Load PageContainer.new tenLines (F32.fin 0)).state.data_.length ≤ 10 ∧
      (∀ what,
        ByIndex (Load PageContainer.new tenLines (F32.fin 0)).state 10 ≠ Lookup.throws what) := by
  have h1 : ByIndex PageContainer.new 0 = Lookup.undefined := by decide
  have h2 : ByIndex (Load PageContainer.new tenLines (F32.fin 0)).state 10
      = Lookup.undefined := by decide!
  refine ⟨by decide, h1, ?_, by decide!, by decide!, ?_⟩
  · intro what h
    rw [h1] at h
    cases h
  · intro what h
    rw [h2] at h
    cases h

/-- C7, amended: `ByIndex` never throws.  For an index below the size of `data_`
it returns the item at that position; for any other index, so for every index
on a freshly constructed container, it makes no check and the result of the
call is undefined. -/
theorem C7_ByIndex_returns_item_in_range (c : PageContainer) (i : Nat) :
    (∀ what, ByIndex c i ≠ Lookup.throws what) ∧
      (∀ h : i < c.data_.length, ByIndex c i = Lookup.returns (c.data_.get ⟨i, h⟩)) ∧
      (c.data_.length ≤ i → ByIndex c i = Lookup.undefined) ∧
      ByIndex PageContainer.new i = Lookup.undefined := by
  refine ⟨?_, ?_, ?_, ?_⟩
  · intro what
    unfold ByIndex
    cases c.data_[i]? <;> simp
  · intro h
    simp [ByIndex, List.getElem?_eq_getElem h]
  · intro h
    simp [ByIndex, List.getElem?_eq_none h]
  · simp [ByIndex, PageContainer.new]

/-! ## Lines that are not three fields -/

theorem parseAndCommit_thrown (c : PageContainer) (t : F32) (tr : List Event) :
    (parseAndCommit c t tr).thrown = none ∨
      (parseAndCommit c t tr).thrown = some "already seen" ∨
      (parseAndCommit c t tr).thrown = some "oops" := by
  by_cases h : (lineIds c.raw_data_).Nodup
  · rw [parseAndCommit_of_nodup c t tr h]
    by_cases hl : (accepted t c.raw_data_).length < kMinLines
    · simp [hl]
    · simp [hl]
  · exact Or.inr (Or.inl (parseAndCommit_of_dup c t tr h).1)

theorem parseItem_blank (line : String) (h : ∀ ch ∈ line.data, isspace ch = true) :
    parseItem line = Item.default := by
  have hdrop : List.dropWhile isspace line.data = [] := by
    apply List.dropWhile_eq_nil_iff.2
    exact h
  simp [parseItem, extractString, extractFloat, sentry, IStream.ofLine, IStream.good, hdrop,
    Item.default]

/-! ## The extraction of a line, field by field -/

theorem takeSign_cons (c : Char) (cs : List Char) :
    takeSign (c :: cs) =
      if c = '+' then (false, cs) else if c = '-' then (true, cs) else (false, c :: cs) := by
  unfold takeSign
  split <;> simp_all

theorem takeFraction_cons (c : Char) (cs : List Char) :
    takeFraction (c :: cs) =
      if c = '.' then (cs.takeWhile Char.isDigit, cs.dropWhile Char.isDigit) else ([], c :: cs) := by
  unfold takeFraction
  split <;> simp_all

theorem takeExponent_cons (c : Char) (cs : List Char) :
    takeExponent (c :: cs) =
      if c = 'e' ∨ c = 'E' then
        some ((takeSign cs).1, (takeSign cs).2.takeWhile Char.isDigit)
      else none := by
  unfold takeExponent
  split <;> simp_all

theorem isspace_not_numeric (sp : Char) (h : isspace sp = true) :
    sp.isDigit = false ∧ sp ≠ '+' ∧ sp ≠ '-' ∧ sp ≠ '.' ∧ sp ≠ 'e' ∧ sp ≠ 'E' := by
  have hcases : sp = ' ' ∨ sp = '\t' ∨ sp = '\n' ∨ sp = Char.ofNat 11 ∨ sp = Char.ofNat 12
      ∨ sp = '\r' := by
    simpa [isspace, or_assoc] using h
  rcases hcases with rfl | rfl | rfl | rfl | rfl | rfl <;> decide

theorem digits_append (a : List Char) (sp : Char) (b : List Char) (h : sp.isDigit = false) :
    (a ++ sp :: b).takeWhile Char.isDigit = a.takeWhile Char.isDigit ∧
      (a ++ sp :: b).dropWhile Char.isDigit = a.dropWhile Char.isDigit ++ sp :: b := by
  induction a with
  | nil => simp [List.takeWhile, List.dropWhile, h]
  | cons x xs ih =>
    by_cases hx : x.isDigit = true
    · simp [List.takeWhile, List.dropWhile, hx, ih.1, ih.2]
    · simp [List.takeWhile, List.dropWhile, hx]

theorem takeSign_append (a : List Char) (sp : Char) (b : List Char) (h : isspace sp = true) :
    takeSign (a ++ sp :: b) = ((takeSign a).1, (takeSign a).2 ++ sp :: b) := by
  obtain ⟨_, h1, h2, _⟩ := isspace_not_numeric sp h
  cases a with
  | nil => simp [takeSign_cons, h1, h2, takeSign]
  | cons x xs =>
    simp only [List.cons_append, takeSign_cons]
    by_cases hx1 : x = '+'
    · simp [hx1]
    · by_cases hx2 : x = '-'
      · simp [hx2]
      · simp [hx1, hx2]

theorem takeFraction_append (a : List Char) (sp : Char) (b : List Char)
    (h : isspace sp = true) :
    takeFraction (a ++ sp :: b) = ((takeFraction a).1, (takeFraction a).2 ++ sp :: b) := by
  obtain ⟨hd, _, _, h3, _⟩ := isspace_not_numeric sp h
  cases a with
  | nil => simp [takeFraction_cons, h3, takeFraction]
  | cons x xs =>
    simp only [List.cons_append, takeFraction_cons]
    by_cases hx : x = '.'
    · simp [hx, (digits_append xs sp b hd).1, (digits_append xs sp b hd).2]
    · simp [hx]

theorem takeExponent_append (a : List Char) (sp : Char) (b : List Char)
    (h : isspace sp = true) :
    takeExponent (a ++ sp :: b) = takeExponent a := by
  obtain ⟨hd, _, _, _, h4, h5⟩ := isspace_not_numeric sp h
  cases a with
  | nil => simp [takeExponent_cons, h4, h5, takeExponent]
  | cons x xs =>
    simp only [List.cons_append, takeExponent_cons, takeSign_append xs sp b h,
      (digits_append _ sp b hd).1]

theorem parseFloat_append (a tail : List Char) (h : startsBlank tail = true) :
    parseFloat (a ++ tail) = parseFloat a := by
  cases tail with
  | nil => simp
  | cons sp b =>
    have hsp : isspace sp = true := h
    obtain ⟨hd, _⟩ := isspace_not_numeric sp hsp
    unfold parseFloat
    simp only [takeSign_append a sp b hsp, (digits_append _ sp b hd).1,
      (digits_append _ sp b hd).2, takeFraction_append _ sp b hsp,
      takeExponent_append _ sp b hsp]

theorem parseFloat_not_numeric (c : Char) (cs : List Char) (hd : c.isDigit = false)
    (h1 : c ≠ '+') (h2 : c ≠ '-') (h3 : c ≠ '.') : parseFloat (c :: cs) = 0 := by
  unfold parseFloat
  simp [takeSign_cons, h1, h2, takeFraction_cons, h3, List.takeWhile, List.dropWhile, hd]

theorem isBlank_iff (cs : List Char) : isBlank cs = true ↔ ∀ ch ∈ cs, isspace ch = true := by
  simp [isBlank, List.all_eq_true]

theorem isField_iff (cs : List Char) :
    isField cs = true ↔ cs ≠ [] ∧ ∀ ch ∈ cs, isspace ch = false := by
  cases cs <;> simp [isField, List.all_eq_true]

theorem startsBlank_of_isBlank (cs : List Char) (h : isBlank cs = true) :
    startsBlank cs = true := by
  cases cs with
  | nil => rfl
  | cons c cs => exact (isBlank_iff _).1 h c (List.mem_cons_self _ _)

theorem startsBlank_blank_append (ws rest : List Char) (h : isBlank ws = true)
    (hne : ws ≠ []) : startsBlank (ws ++ rest) = true := by
  cases ws with
  | nil => exact absurd rfl hne
  | cons c cs => exact (isBlank_iff _).1 h c (List.mem_cons_self _ _)

theorem dropWhile_isspace_blank (ws rest : List Char) (h : isBlank ws = true) :
    (ws ++ rest).dropWhile isspace = rest.dropWhile isspace := by
  induction ws with
  | nil => rfl
  | cons c cs ih =>
    have hc : isspace c = true := (isBlank_iff _).1 h c (List.mem_cons_self _ _)
    have hcs : isBlank cs = true :=
      (isBlank_iff _).2 (fun ch hch => (isBlank_iff _).1 h ch (List.mem_cons_of_mem _ hch))
    simp [List.dropWhile, hc, ih hcs]

theorem dropWhile_isspace_field (w rest : List Char) (h : isField w = true) :
    (w ++ rest).dropWhile isspace = w ++ rest := by
  obtain ⟨hne, hw⟩ := (isField_iff w).1 h
  cases w with
  | nil => exact absurd rfl hne
  | cons c cs =>
    have hc : isspace c = false := hw c (List.mem_cons_self _ _)
    simp [List.dropWhile, hc]

theorem field_then_rest (w rest : List Char) (hw : ∀ ch ∈ w, isspace ch = false)
    (hrest : startsBlank rest = true) :
    (w ++ rest).takeWhile (fun c => !isspace c) = w ∧
      (w ++ rest).dropWhile (fun c => !isspace c) = rest := by
  induction w with
  | nil =>
    cases rest with
    | nil => simp
    | cons sp b =>
      have hsp : isspace sp = true := hrest
      simp [List.takeWhile, List.dropWhile, hsp]
  | cons c cs ih =>
    have hc : isspace c = false := hw c (List.mem_cons_self _ _)
    have ih1 := ih (fun ch hch => hw ch (List.mem_cons_of_mem _ hch))
    simp [List.takeWhile, List.dropWhile, hc, ih1.1, ih1.2]

/-- The extraction of a field that is there: leading whitespace is skipped,
the field is stored, and the stream is left before what follows the field,
with `eofbit` set when nothing follows. -/
theorem extractString_field (ws w rest : List Char) (str : String)
    (hws : isBlank ws = true) (hw : isField w = true) (hrest : startsBlank rest = true) :
    extractString ⟨ws ++ (w ++ rest), false, false⟩ str
      = (⟨rest, rest.isEmpty, false⟩, String.mk w) := by
  obtain ⟨hne, hw1⟩ := (isField_iff w).1 hw
  have hdrop : (ws ++ (w ++ rest)).dropWhile isspace = w ++ rest := by
    rw [dropWhile_isspace_blank ws _ hws, dropWhile_isspace_field w rest hw]
  have hnonempty : (w ++ rest).isEmpty = false := by
    cases w with
    | nil => exact absurd rfl hne
    | cons c cs => rfl
  have hwe : w.isEmpty = false := by
    cases w with
    | nil => exact absurd rfl hne
    | cons c cs => rfl
  obtain ⟨ht, hd⟩ := field_then_rest w rest hw1 hrest
  simp [extractString, sentry, IStream.good, hdrop, hnonempty, ht, hd, hwe]

/-- The extractions on a stream that is not good or holds only whitespace:
nothing is stored and the stream is not good afterwards. -/
theorem extract_nothing (s : IStream) (h : s.good = false ∨ isBlank s.buf = true) :
    (∀ str, (extractString s str).2 = str ∧ (extractString s str).1.good = false) ∧
      (∀ x, extractFloat s x = x) := by
  have hs : (sentry s).2 = false ∧ (sentry s).1.good = false := by
    unfold sentry
    by_cases hg : s.good = true
    · rcases h with h | h
      · rw [h] at hg; cases hg
      · have hdrop : s.buf.dropWhile isspace = [] := by
          have := dropWhile_isspace_blank s.buf [] h
          simpa using this
        rw [if_pos hg]
        simp [hdrop, IStream.good]
    · rw [if_neg hg]
      exact ⟨rfl, by simp [IStream.good]⟩
  refine ⟨fun str => ?_, fun x => ?_⟩
  · unfold extractString
    generalize sentry s = r at hs
    obtain ⟨s1, ok⟩ := r
    simp only at hs
    obtain ⟨rfl, hgood⟩ := hs
    exact ⟨rfl, hgood⟩
  · unfold extractFloat
    generalize sentry s = r at hs
    obtain ⟨s1, ok⟩ := r
    simp only at hs
    obtain ⟨rfl, _⟩ := hs
    rfl

theorem parseItem_one_field (ws1 w1 ws2 : List Char) (h1 : isBlank ws1 = true)
    (hw1 : isField w1 = true) (h2 : isBlank ws2 = true) :
    parseItem (String.mk (ws1 ++ w1 ++ ws2)) = ⟨String.mk w1, "", F32.fin 0⟩ := by
  have hr1 := extractString_field ws1 w1 ws2 Item.default.id h1 hw1
    (startsBlank_of_isBlank ws2 h2)
  have hex := extract_nothing ⟨ws2, ws2.isEmpty, false⟩ (Or.inr h2)
  have hex2 := extract_nothing
    (extractString ⟨ws2, ws2.isEmpty, false⟩ Item.default.name).1
    (Or.inl (hex.1 Item.default.name).2)
  unfold parseItem IStream.ofLine
  simp only [List.append_assoc]
  rw [hr1]
  simp only [(hex.1 Item.default.name).1, hex2.2]
  rfl

theorem parseItem_two_fields (ws1 w1 ws2 w2 ws3 : List Char) (h1 : isBlank ws1 = true)
    (hw1 : isField w1 = true) (h2 : isBlank ws2 = true) (hne2 : ws2 ≠ [])
    (hw2 : isField w2 = true) (h3 : isBlank ws3 = true) :
    parseItem (String.mk (ws1 ++ w1 ++ ws2 ++ w2 ++ ws3))
      = ⟨String.mk w1, String.mk w2, F32.fin 0⟩ := by
  have hr1 := extractString_field ws1 w1 (ws2 ++ (w2 ++ ws3)) Item.default.id h1 hw1
    (startsBlank_blank_append ws2 _ h2 hne2)
  have hne : (ws2 ++ (w2 ++ ws3)).isEmpty = false := by
    cases ws2 with
    | nil => exact absurd rfl hne2
    | cons c cs => rfl
  have hr2 := extractString_field ws2 w2 ws3 Item.default.name h2 hw2
    (startsBlank_of_isBlank ws3 h3)
  have hex := extract_nothing ⟨ws3, ws3.isEmpty, false⟩ (Or.inr h3)
  unfold parseItem IStream.ofLine
  simp only [List.append_assoc]
  rw [hr1]
  simp only [hne, hr2, hex.2]
  rfl

theorem parseItem_three_fields (ws1 w1 ws2 w2 ws3 w3 tail : List Char)
    (h1 : isBlank ws1 = true) (hw1 : isField w1 = true) (h2 : isBlank ws2 = true)
    (hne2 : ws2 ≠ []) (hw2 : isField w2 = true) (h3 : isBlank ws3 = true) (hne3 : ws3 ≠ [])
    (hw3 : isField w3 = true) (htail : startsBlank tail = true) :
    parseItem (String.mk (ws1 ++ w1 ++ ws2 ++ w2 ++ ws3 ++ w3 ++ tail))
      = ⟨String.mk w1, String.mk w2, F32.fin (parseFloat w3)⟩ := by
  have hr1 := extractString_field ws1 w1 (ws2 ++ (w2 ++ (ws3 ++ (w3 ++ tail))))
    Item.default.id h1 hw1 (startsBlank_blank_append ws2 _ h2 hne2)
  have hne : (ws2 ++ (w2 ++ (ws3 ++ (w3 ++ tail)))).isEmpty = false := by
    cases ws2 with
    | nil => exact absurd rfl hne2
    | cons c cs => rfl
  have hr2 := extractString_field ws2 w2 (ws3 ++ (w3 ++ tail)) Item.default.name h2 hw2
    (startsBlank_blank_append ws3 _ h3 hne3)
  have hne' : (ws3 ++ (w3 ++ tail)).isEmpty = false := by
    cases ws3 with
    | nil => exact absurd rfl hne3
    | cons c cs => rfl
  have hdrop : (ws3 ++ (w3 ++ tail)).dropWhile isspace = w3 ++ tail := by
    rw [dropWhile_isspace_blank ws3 _ h3, dropWhile_isspace_field w3 tail hw3]
  have hnonempty : (w3 ++ tail).isEmpty = false := by
    obtain ⟨hne3', _⟩ := (isField_iff w3).1 hw3
    cases w3 with
    | nil => exact absurd rfl hne3'
    | cons c cs => rfl
  have hfloat : extractFloat ⟨ws3 ++ (w3 ++ tail), false, false⟩ Item.default.score
      = F32.fin (parseFloat w3) := by
    simp [extractFloat, sentry, IStream.good, hdrop, hnonempty, parseFloat_append w3 tail htail]
  unfold parseItem IStream.ofLine
  simp only [List.append_assoc]
  rw [hr1]
  simp only [hne, hr2, hne', hfloat]

/-- C8, refuted as stated: `Load` of ten lines that begin with a blank line, a
one-field line, a two-field line, a line with a non-numeric score and a line
with an extra field throws nothing; each of these lines has become an item of
`data_`. -/
theorem C8_counterexample :
    (Load PageContainer.new malformedLines (F32.fin (-1))).thrown = none ∧
      (Load PageContainer.new malformedLines (F32.fin (-1))).state.data_ =
        [⟨"", "", F32.fin 0⟩, ⟨"id1", "", F32.fin 0⟩, ⟨"id2", "name2", F32.fin 0⟩,
          ⟨"id3", "name3", F32.fin 0⟩, ⟨"id4", "name4", F32.fin 4⟩, sampleItem 5,
          sampleItem 6, sampleItem 7, sampleItem 8, sampleItem 9] := by
  decide!

/-- C8, amended: `Load` and `Reload` have no error for a malformed line; the only
messages thrown are "too small input stream" (by `Load`), "already seen" and
"oops".  Every raw line is turned into an item by the three extractions, and
what cannot be extracted keeps the value of a default-constructed item
(empty id, empty name, score 0).  A line of whitespace only gives the
default item; a line with exactly one field gives that field as id, an empty
name and score 0; a line with exactly two fields gives them as id and name,
and score 0; a line with three or more fields gives the first two as id and
name, and as score what the numeric conversion reads from the third field
alone, whatever follows the third field being ignored; that score is 0 when
the third field does not begin with a digit, a sign or a decimal point. -/
theorem C8_no_invalid_record_error :
    (∀ (c : PageContainer) (io : String) (t : F32),
      (Load c io t).thrown = none ∨ (Load c io t).thrown = some "too small input stream" ∨
        (Load c io t).thrown = some "already seen" ∨ (Load c io t).thrown = some "oops") ∧
      (∀ (c : PageContainer) (t : F32),
        (Reload c t).thrown = none ∨ (Reload c t).thrown = some "already seen" ∨
          (Reload c t).thrown = some "oops") ∧
      (∀ line : String, isBlank line.data = true → parseItem line = ⟨"", "", F32.fin 0⟩) ∧
      (∀ ws1 w1 ws2 : List Char,
        isBlank ws1 = true → isField w1 = true → isBlank ws2 = true →
        parseItem (String.mk (ws1 ++ w1 ++ ws2)) = ⟨String.mk w1, "", F32.fin 0⟩) ∧
      (∀ ws1 w1 ws2 w2 ws3 : List Char,
        isBlank ws1 = true → isField w1 = true → isBlank ws2 = true → ws2 ≠ [] →
        isField w2 = true → isBlank ws3 = true →
        parseItem (String.mk (ws1 ++ w1 ++ ws2 ++ w2 ++ ws3))
          = ⟨String.mk w1, String.mk w2, F32.fin 0⟩) ∧
      (∀ ws1 w1 ws2 w2 ws3 w3 tail : List Char,
        isBlank ws1 = true → isField w1 = true → isBlank ws2 = true → ws2 ≠ [] →
        isField w2 = true → isBlank ws3 = true → ws3 ≠ [] → isField w3 = true →
        startsBlank tail = true →
        parseItem (String.mk (ws1 ++ w1 ++ ws2 ++ w2 ++ ws3 ++ w3 ++ tail))
          = ⟨String.mk w1, String.mk w2, F32.fin (parseFloat w3)⟩) ∧
      (∀ (ch : Char) (cs : List Char),
        ch.isDigit = false → ch ≠ '+' → ch ≠ '-' → ch ≠ '.' → parseFloat (ch :: cs) = 0) ∧
      parseItem "id1" = ⟨"id1", "", F32.fin 0⟩ ∧
      parseItem "id2 name2" = ⟨"id2", "name2", F32.fin 0⟩ ∧
      parseItem "id3 name3 x" = ⟨"id3", "name3", F32.fin 0⟩ ∧
      parseItem "id4 name4 4.0 extra" = ⟨"id4", "name4", F32.fin 4⟩ := by
  refine ⟨?_, ?_, ?_, ?_, ?_, ?_, ?_, by decide!, by decide!, by decide!, by decide!⟩
  · intro c io t
    by_cases hlen : (readLines io).length < kMinLines
    · rw [Load_small c io t hlen]
      simp
    · rw [Load_large c io t (Nat.not_lt.1 hlen)]
      rcases parseAndCommit_thrown { c with raw_data_ := readLines io } t
        (c.list_observer1.map (fun o => Event.OnRawDataLoad o c.raw_data_ (readLines io)))
        with h | h | h
      · exact Or.inl h
      · exact Or.inr (Or.inr (Or.inl h))
      · exact Or.inr (Or.inr (Or.inr h))
  · intro c t
    rw [Reload_eq]
    exact parseAndCommit_thrown c t []
  · intro line h
    exact parseItem_blank line ((isBlank_iff _).1 h)
  · intro ws1 w1 ws2 h1 hw1 h2
    exact parseItem_one_field ws1 w1 ws2 h1 hw1 h2
  · intro ws1 w1 ws2 w2 ws3 h1 hw1 h2 hne2 hw2 h3
    exact parseItem_two_fields ws1 w1 ws2 w2 ws3 h1 hw1 h2 hne2 hw2 h3
  · intro ws1 w1 ws2 w2 ws3 w3 tail h1 hw1 h2 hne2 hw2 h3 hne3 hw3 htail
    exact parseItem_three_fields ws1 w1 ws2 w2 ws3 w3 tail h1 hw1 h2 hne2 hw2 h3 hne3 hw3 htail
  · intro ch cs hd h1 h2 h3
    exact parseFloat_not_numeric ch cs hd h1 h2 h3

/-! ## Lowering the threshold -/

theorem F32.gt_of_gt_of_lt (s t1 t2 : F32) (h1 : s.gt t1 = true) (h2 : t2.lt t1 = true) :
    s.gt t2 = true := by
  cases s <;> cases t1 <;> cases t2 <;> simp_all [F32.gt, F32.lt]
  exact lt_trans h2 h1

theorem accepted_sublist (t1 t2 : F32) (h : t2.lt t1 = true) (lines : List String) :
    List.Sublist (accepted t1 lines) (accepted t2 lines) := by
  apply List.monotone_filter_right
  intro it hit
  exact F32.gt_of_gt_of_lt it.score t1 t2 hit h

/-- C9: for thresholds `T2 < T1`, when `Reload(T1)` returns without throwing, a
following `Reload(T2)` returns without throwing as well, every item of the
`data_` left by `Reload(T1)` is in the `data_` left by `Reload(T2)`, and the
first list is a sublist of the second, in the same order. -/
theorem C9_reload_monotone (c : PageContainer) (T1 T2 : F32) (hlt : T2.lt T1 = true)
    (hok : (Reload c T1).thrown = none) :
    (Reload (Reload c T1).state T2).thrown = none ∧
      (∀ it ∈ (Reload c T1).state.data_, it ∈ (Reload (Reload c T1).state T2).state.data_) ∧
      List.Sublist (Reload c T1).state.data_ (Reload (Reload c T1).state T2).state.data_ := by
  simp only [Reload_eq] at hok ⊢
  obtain ⟨hnd, hlen⟩ := (parseAndCommit_ok_iff c T1 []).1 hok
  rw [parseAndCommit_ok c T1 [] hok]
  have hsub := accepted_sublist T1 T2 hlt c.raw_data_
  have hok2 : (parseAndCommit { c with data_ := accepted T1 c.raw_data_ } T2 []).thrown = none := by
    apply (parseAndCommit_ok_iff _ T2 []).2
    exact ⟨hnd, le_trans hlen hsub.length_le⟩
  refine ⟨hok2, ?_, ?_⟩
  · rw [parseAndCommit_ok _ T2 [] hok2]
    exact fun it hit => hsub.subset hit
  · rw [parseAndCommit_ok _ T2 [] hok2]
    exact hsub

/-- C9 on the container loaded with the ten sample lines, reloaded with
threshold 0.5 and then with threshold 0. -/
theorem C9_reload_monotone_witness :
    (F32.fin 0).lt (F32.fin (1 / 2)) = true ∧
      (Reload (Load PageContainer.new tenLines (F32.fin 0)).state (F32.fin (1 / 2))).thrown
        = none ∧
      (Reload (Reload (Load PageContainer.new tenLines (F32.fin 0)).state
        (F32.fin (1 / 2))).state (F32.fin 0)).thrown = none :=
  ⟨by decide!, by decide!,
    (C9_reload_monotone (Load PageContainer.new tenLines (F32.fin 0)).state (F32.fin (1 / 2))
      (F32.fin 0) (by decide!) (by decide!)).1⟩

/-! ## The calls an `Observer2` receives -/

theorem callsOn2_append (o : Observer2) (tr1 tr2 : List Event) :
    callsOn2 o (tr1 ++ tr2) = callsOn2 o tr1 ++ callsOn2 o tr2 := by
  simp [callsOn2]

theorem callsOn2_skipAll (o : Observer2) (l2 : List Observer2) (it : Item) :
    callsOn2 o (skipAll l2 it) = List.replicate (l2.count o) (Event.Skip o it) := by
  induction l2 with
  | nil => rfl
  | cons p ps ih =>
    have ih1 : List.filter (fun e =>
        match e with
        | Event.OnLoaded o1 _ => decide (o1 = o)
        | Event.Skip o1 _ => decide (o1 = o)
        | _ => false) (List.map (fun q => Event.Skip q it) ps)
          = List.replicate (ps.count o) (Event.Skip o it) := ih
    by_cases hp : p = o
    · subst hp
      simp [callsOn2, skipAll, List.filter_cons, List.replicate_succ, ih1]
    · have hp1 : (p == o) = false := by simpa using hp
      simp [callsOn2, skipAll, List.filter_cons, List.count_cons, hp, hp1, ih1]

theorem callsOn2_loaded (o : Observer2) (l2 : List Observer2) (data : List Item) :
    callsOn2 o (l2.map (fun p => Event.OnLoaded p data))
      = List.replicate (l2.count o) (Event.OnLoaded o data) := by
  induction l2 with
  | nil => rfl
  | cons p ps ih =>
    have ih1 : List.filter (fun e =>
        match e with
        | Event.OnLoaded o1 _ => decide (o1 = o)
        | Event.Skip o1 _ => decide (o1 = o)
        | _ => false) (List.map (fun q => Event.OnLoaded q data) ps)
          = List.replicate (ps.count o) (Event.OnLoaded o data) := ih
    by_cases hp : p = o
    · subst hp
      simp [callsOn2, List.filter_cons, List.replicate_succ, ih1]
    · have hp1 : (p == o) = false := by simpa using hp
      simp [callsOn2, List.filter_cons, List.count_cons, hp, hp1, ih1]

theorem callsOn2_skips (o : Observer2) (l2 : List Observer2) (items : List Item) :
    callsOn2 o (items.flatMap (skipAll l2))
      = items.flatMap (fun it => List.replicate (l2.count o) (Event.Skip o it)) := by
  induction items with
  | nil => rfl
  | cons it rest ih =>
    simp only [List.flatMap_cons, callsOn2_append, callsOn2_skipAll, ih]

theorem callsOn2_onDataLoad (o : Observer2) (l1 : List Observer1) (old new : List Item) :
    callsOn2 o (l1.map (fun p => Event.OnDataLoad p old new)) = [] := by
  apply List.filter_eq_nil_iff.2
  intro e he
  obtain ⟨p, _, rfl⟩ := List.mem_map.1 he
  simp

theorem callsOn2_onRawDataLoad (o : Observer2) (l1 : List Observer1) (old new : List String) :
    callsOn2 o (l1.map (fun p => Event.OnRawDataLoad p old new)) = [] := by
  apply List.filter_eq_nil_iff.2
  intro e he
  obtain ⟨p, _, rfl⟩ := List.mem_map.1 he
  simp

/-! ## Rejection as `score <= threshold` -/

theorem parseItem_score_fin (line : String) : ∃ q, (parseItem line).score = F32.fin q := by
  have h : ∀ (s : IStream), ∃ q, extractFloat s Item.default.score = F32.fin q := by
    intro s
    unfold extractFloat
    split
    · exact ⟨0, rfl⟩
    · exact ⟨_, rfl⟩
  exact h _

theorem F32.le_fin_eq_not_gt (q : ℚ) (t : F32) (ht : t ≠ F32.nan) :
    (F32.fin q).le t = !(F32.fin q).gt t := by
  cases t with
  | nan => exact absurd rfl ht
  | ninf => rfl
  | pinf => rfl
  | fin b =>
    by_cases h : q ≤ b
    · simp [F32.le, F32.gt, h]
    · simp [F32.le, F32.gt, h, not_le.1 h]

theorem notAbove_eq_rejected (t : F32) (lines : List String) (ht : t ≠ F32.nan) :
    notAbove t lines = rejected t lines := by
  unfold notAbove rejected
  apply List.filter_congr
  intro it hit
  obtain ⟨l, _, rfl⟩ := List.mem_map.1 hit
  obtain ⟨q, hq⟩ := parseItem_score_fin l
  rw [hq]
  exact F32.le_fin_eq_not_gt q t ht

theorem threshold_ne_nan_of_accepted (t : F32) (lines : List String)
    (h : kMinLines ≤ (accepted t lines).length) : t ≠ F32.nan := by
  rintro rfl
  have hnil : accepted F32.nan lines = [] := by
    apply List.filter_eq_nil_iff.2
    intro it _
    cases it.score <;> simp [F32.gt]
  rw [hnil] at h
  exact absurd h (by decide)

theorem callsOn2_ok (c : PageContainer) (t : F32) (tr : List Event) (o : Observer2)
    (hok : (parseAndCommit c t tr).thrown = none) :
    callsOn2 o (parseAndCommit c t tr).trace =
      callsOn2 o tr
        ++ (notAbove t c.raw_data_).flatMap
            (fun it => List.replicate (c.list_observer2.count o) (Event.Skip o it))
        ++ List.replicate (c.list_observer2.count o)
            (Event.OnLoaded o (parseAndCommit c t tr).state.data_) := by
  have hnan := threshold_ne_nan_of_accepted t c.raw_data_ ((parseAndCommit_ok_iff c t tr).1 hok).2
  rw [parseAndCommit_ok c t tr hok, notAbove_eq_rejected t _ hnan]
  simp only [callsOn2_append, callsOn2_skips, callsOn2_onDataLoad, callsOn2_loaded,
    List.append_nil]

/-- C10, refuted as stated: after `Attach` of the same `Observer2` twice, a
successful `Load` of eleven lines with one rejected line calls `Skip` on that
observer twice for the one line and `OnLoaded` twice, not once each. -/
theorem C10_counterexample :
    7 ∈ (Attach2 (Attach2 PageContainer.new 7) 7).list_observer2 ∧
      (Load (Attach2 (Attach2 PageContainer.new 7) 7) elevenLines (F32.fin 0)).thrown = none ∧
      notAbove (F32.fin 0) (readLines elevenLines) = [sampleItem 0] ∧
      callsOn2 7 (Load (Attach2 (Attach2 PageContainer.new 7) 7) elevenLines (F32.fin 0)).trace
        = [Event.Skip 7 (sampleItem 0), Event.Skip 7 (sampleItem 0),
            Event.OnLoaded 7 ((List.range' 1 10).map sampleItem),
            Event.OnLoaded 7 ((List.range' 1 10).map sampleItem)] ∧
      callsOn2 7 (Load (Attach2 (Attach2 PageContainer.new 7) 7) elevenLines (F32.fin 0)).trace
        ≠ (notAbove (F32.fin 0) (readLines elevenLines)).map (Event.Skip 7)
            ++ [Event.OnLoaded 7
                (Load (Attach2 (Attach2 PageContainer.new 7) 7) elevenLines
                  (F32.fin 0)).state.data_] := by
  decide!

/-- C10, amended: in a pass of `Load` or `Reload` that returns without throwing,
an `Observer2` that occurs `k` times in the registry receives, for each raw
line with `score <= threshold` in line order, `k` calls of `Skip` with the item
of that line, and after all of them `k` calls of `OnLoaded` with the new
`data_`, and nothing else.  For an observer registered exactly once this is
one `Skip` per such line, in line order, followed by a single `OnLoaded`. -/
theorem C10_skip_calls_in_line_order (c : PageContainer) (t : F32) (lines : List String)
    (out : Outcome)
    (hcall : (out = Reload c t ∧ lines = c.raw_data_) ∨
      (∃ io, out = Load c io t ∧ lines = readLines io))
    (hok : out.thrown = none) (o : Observer2) :
    callsOn2 o out.trace =
        (notAbove t lines).flatMap
            (fun it => List.replicate (c.list_observer2.count o) (Event.Skip o it))
          ++ List.replicate (c.list_observer2.count o) (Event.OnLoaded o out.state.data_) ∧
      (c.list_observer2.count o = 1 →
        callsOn2 o out.trace =
          (notAbove t lines).map (Event.Skip o) ++ [Event.OnLoaded o out.state.data_]) := by
  have key : callsOn2 o out.trace =
      (notAbove t lines).flatMap
          (fun it => List.replicate (c.list_observer2.count o) (Event.Skip o it))
        ++ List.replicate (c.list_observer2.count o) (Event.OnLoaded o out.state.data_) := by
    rcases hcall with ⟨rfl, rfl⟩ | ⟨io, rfl, rfl⟩
    · rw [Reload_eq] at hok ⊢
      rw [callsOn2_ok c t [] o hok]
      rfl
    · by_cases hlen : (readLines io).length < kMinLines
      · rw [Load_small c io t hlen] at hok
        simp at hok
      · rw [Load_large c io t (Nat.not_lt.1 hlen)] at hok ⊢
        rw [callsOn2_ok _ t _ o hok, callsOn2_onRawDataLoad]
        rfl
  refine ⟨key, fun hone => ?_⟩
  have hsingle : ∀ l : List Item,
      l.flatMap (fun it => [Event.Skip o it]) = l.map (Event.Skip o) := by
    intro l
    induction l with
    | nil => rfl
    | cons x xs ih => simp [ih]
  rw [key, hone]
  show (notAbove t lines).flatMap (fun it => [Event.Skip o it])
    ++ [Event.OnLoaded o out.state.data_] = _
  rw [hsingle]

/-- C10 at a successful `Load` of the eleven lines on a container with one
registered `Observer2`. -/
theorem C10_skip_calls_in_line_order_witness :
    (Load (Attach2 PageContainer.new 7) elevenLines (F32.fin 0)).thrown = none ∧
      callsOn2 7 (Load (Attach2 PageContainer.new 7) elevenLines (F32.fin 0)).trace =
        (notAbove (F32.fin 0) (readLines elevenLines)).map (Event.Skip 7)
          ++ [Event.OnLoaded 7
              (Load (Attach2 PageContainer.new 7) elevenLines (F32.fin 0)).state.data_] :=
  ⟨by decide!,
    (C10_skip_calls_in_line_order (Attach2 PageContainer.new 7) (F32.fin 0)
      (readLines elevenLines) (Load (Attach2 PageContainer.new 7) elevenLines (F32.fin 0))
      (Or.inr ⟨elevenLines, rfl, rfl⟩) (by decide!) 7).2 (by decide)⟩

/-! ## `Reload` as the tail of `Load` -/

theorem parseLoop_trace (l2 : List Observer2) (t : F32) :
    ∀ (lines : List String) (data : List Item) (ids : List String) (tr : List Event),
      parseLoop l2 t lines data ids tr
        = ((parseLoop l2 t lines data ids []).1, tr ++ (parseLoop l2 t lines data ids []).2) := by
  intro lines
  induction lines with
  | nil => intro data ids tr; simp [parseLoop]
  | cons line rest ih =>
    intro data ids tr
    by_cases hhead : (parseItem line).id ∈ ids
    · simp [parseLoop, hhead]
    · by_cases hgt : (parseItem line).score.gt t = true
      · simp only [parseLoop, hhead, hgt, if_true, if_false]
        exact ih _ _ _
      · simp only [parseLoop, hhead, hgt, if_false, List.nil_append]
        rw [ih _ _ (tr ++ skipAll l2 (parseItem line)), ih _ _ (skipAll l2 (parseItem line))]
        simp

theorem parseAndCommit_trace (c : PageContainer) (t : F32) (tr : List Event) :
    parseAndCommit c t tr =
      ⟨(parseAndCommit c t []).state, tr ++ (parseAndCommit c t []).trace,
        (parseAndCommit c t []).thrown⟩ := by
  unfold parseAndCommit
  rw [parseLoop_trace c.list_observer2 t c.raw_data_ [] [] tr]
  generalize parseLoop c.list_observer2 t c.raw_data_ [] [] [] = r
  obtain ⟨d, tr1⟩ := r
  cases d with
  | none => simp
  | some data =>
    by_cases hl : data.length < kMinLines
    · simp [hl]
    · simp [hl]

theorem parseLoop_events (l2 : List Observer2) (t : F32) :
    ∀ (lines : List String) (data : List Item) (ids : List String) (tr : List Event),
      ∀ e ∈ (parseLoop l2 t lines data ids tr).2, e ∈ tr ∨ Event.isSkip e = true := by
  intro lines
  induction lines with
  | nil => intro data ids tr e he; exact Or.inl (by simpa [parseLoop] using he)
  | cons line rest ih =>
    intro data ids tr e he
    by_cases hhead : (parseItem line).id ∈ ids
    · exact Or.inl (by simpa [parseLoop, hhead] using he)
    · by_cases hgt : (parseItem line).score.gt t = true
      · simp only [parseLoop, hhead, hgt, if_true, if_false] at he
        exact ih _ _ _ e he
      · simp only [parseLoop, hhead, hgt, if_false] at he
        rcases ih _ _ _ e he with h | h
        · rcases List.mem_append.1 h with h | h
          · exact Or.inl h
          · obtain ⟨o, _, rfl⟩ := List.mem_map.1 h
            exact Or.inr rfl
        · exact Or.inr h

theorem parseAndCommit_frame (c : PageContainer) (t : F32) (tr : List Event) :
    (parseAndCommit c t tr).state.raw_data_ = c.raw_data_ ∧
      (parseAndCommit c t tr).state.list_observer1 = c.list_observer1 ∧
      (parseAndCommit c t tr).state.list_observer2 = c.list_observer2 := by
  unfold parseAndCommit
  generalize parseLoop c.list_observer2 t c.raw_data_ [] [] tr = r
  obtain ⟨d, tr1⟩ := r
  cases d with
  | none => simp
  | some data =>
    by_cases hl : data.length < kMinLines
    · simp [hl]
    · simp [hl]

theorem parseAndCommit_no_raw (c : PageContainer) (t : F32) :
    ∀ e ∈ (parseAndCommit c t []).trace, Event.isRawDataLoad e = false := by
  intro e he
  have hskip : ∀ e ∈ (parseLoop c.list_observer2 t c.raw_data_ [] [] []).2,
      Event.isRawDataLoad e = false := by
    intro e he
    rcases parseLoop_events c.list_observer2 t c.raw_data_ [] [] [] e he with h | h
    · cases h
    · cases e <;> simp_all [Event.isSkip, Event.isRawDataLoad]
  unfold parseAndCommit at he
  generalize parseLoop c.list_observer2 t c.raw_data_ [] [] [] = r at he hskip
  obtain ⟨d, tr1⟩ := r
  cases d with
  | none => exact hskip e (by simpa using he)
  | some data =>
    by_cases hl : data.length < kMinLines
    · exact hskip e (by simpa [hl] using he)
    · simp only [hl, if_false, List.mem_append, List.mem_map] at he
      rcases he with (he | ⟨o, _, rfl⟩) | ⟨o, _, rfl⟩
      · exact hskip e he
      · rfl
      · rfl

/-- C11: for an input of at least 10 lines, `Load(io, t)` ends like `Reload(t)`
run on the container in which `raw_data_` has been replaced by the lines of
the input: the same exception or none, the same final state and so the same
`data_`, and a trace that is the `OnRawDataLoad` calls followed by exactly the
calls of that `Reload`; leaving the `OnRawDataLoad` calls out of the trace of
`Load` gives the trace of `Reload`. -/
theorem C11_load_is_ingest_then_reload (c : PageContainer) (io : String) (t : F32)
    (hlen : 10 ≤ (readLines io).length) :
    (Load c io t).thrown = (Reload { c with raw_data_ := readLines io } t).thrown ∧
      (Load c io t).state = (Reload { c with raw_data_ := readLines io } t).state ∧
      (Load c io t).state.data_ = (Reload { c with raw_data_ := readLines io } t).state.data_ ∧
      (Load c io t).trace =
        c.list_observer1.map (fun o => Event.OnRawDataLoad o c.raw_data_ (readLines io))
          ++ (Reload { c with raw_data_ := readLines io } t).trace ∧
      (Load c io t).trace.filter (fun e => !Event.isRawDataLoad e)
        = (Reload { c with raw_data_ := readLines io } t).trace := by
  have hraw : ∀ e ∈ c.list_observer1.map
      (fun o => Event.OnRawDataLoad o c.raw_data_ (readLines io)),
      Event.isRawDataLoad e = true := by
    intro e he
    obtain ⟨o, _, rfl⟩ := List.mem_map.1 he
    rfl
  have hno := parseAndCommit_no_raw { c with raw_data_ := readLines io } t
  rw [Load_large c io t hlen, Reload_eq, parseAndCommit_trace _ t (List.map _ _)]
  refine ⟨rfl, rfl, rfl, rfl, ?_⟩
  simp only [List.filter_append]
  rw [List.filter_eq_nil_iff.2 (fun e he => by simp [hraw e he]),
    List.filter_eq_self.2 (fun e he => by simp [hno e he])]
  rfl

/-- C11 at the ten sample lines with threshold 5, on a container with one
observer of each kind. -/
theorem C11_load_is_ingest_then_reload_witness :
    10 ≤ (readLines tenLines).length ∧
      (Load ⟨[1], [2], [], []⟩ tenLines (F32.fin 5)).thrown
        = (Reload { (⟨[1], [2], [], []⟩ : PageContainer) with raw_data_ := readLines tenLines }
            (F32.fin 5)).thrown :=
  ⟨by decide, (C11_load_is_ingest_then_reload ⟨[1], [2], [], []⟩ tenLines (F32.fin 5)
    (by decide)).1⟩

/-! ## Invariants of the states reached by calls -/

theorem parseAndCommit_data (c : PageContainer) (t : F32) (tr : List Event) :
    (parseAndCommit c t tr).state.data_ = c.data_ ∨
      (((parseAndCommit c t tr).state.data_.map Item.id).Nodup ∧
        kMinLines ≤ (parseAndCommit c t tr).state.data_.length) := by
  by_cases h : (lineIds c.raw_data_).Nodup
  · rw [parseAndCommit_of_nodup c t tr h]
    by_cases hl : (accepted t c.raw_data_).length < kMinLines
    · simp [hl]
    · right
      simp only [hl, if_false]
      exact ⟨accepted_ids_nodup t _ h, Nat.not_lt.1 hl⟩
  · exact Or.inl (by rw [(parseAndCommit_of_dup c t tr h).2])

theorem Call.run_data (c : PageContainer) (call : Call) :
    (Call.run c call).data_ = c.data_ ∨
      (((Call.run c call).data_.map Item.id).Nodup ∧
        kMinLines ≤ (Call.run c call).data_.length) := by
  cases call with
  | load io t =>
    by_cases hlen : (readLines io).length < kMinLines
    · left
      simp [Call.run, Load_small c io t hlen]
    · simp only [Call.run, Load_large c io t (Nat.not_lt.1 hlen)]
      exact parseAndCommit_data _ t _
  | reload t =>
    simp only [Call.run, Reload_eq]
    exact parseAndCommit_data c t []
  | attach1 o => exact Or.inl rfl
  | detach1 o => exact Or.inl rfl
  | attach2 o => exact Or.inl rfl
  | detach2 o => exact Or.inl rfl

theorem runCalls_invariant (P : PageContainer → Prop)
    (hstep : ∀ c call, P c → P (Call.run c call)) :
    ∀ (calls : List Call) (c : PageContainer), P c → P (runCalls c calls) := by
  intro calls
  induction calls with
  | nil => intro c hc; exact hc
  | cons call rest ih =>
    intro c hc
    exact ih (Call.run c call) (hstep c call hc)

/-- C12: the container is constructed with both collections empty, and after any
sequence of `Load`, `Reload`, `Attach` and `Detach` calls on it, whether they
return or throw, the ids of the items of `data_` are pairwise distinct. -/
theorem C12_ids_unique_in_every_reachable_state (calls : List Call) :
    ((runCalls PageContainer.new calls).data_.map Item.id).Nodup ∧
      PageContainer.new.data_ = [] ∧ PageContainer.new.raw_data_ = [] := by
  refine ⟨?_, rfl, rfl⟩
  apply runCalls_invariant (fun c => (c.data_.map Item.id).Nodup)
  · intro c call hc
    rcases Call.run_data c call with h | h
    · rw [h]; exact hc
    · exact h.1
  · exact List.nodup_nil

/-- C19: after any sequence of `Load`, `Reload`, `Attach` and `Detach` calls on a
freshly constructed container, whether they return or throw, `data_` is empty
or holds at least 10 items, so `data_size()` is never one of 1, ..., 9. -/
theorem C19_entries_empty_or_at_least_ten (calls : List Call) :
    ((runCalls PageContainer.new calls).data_ = [] ∨
        10 ≤ (runCalls PageContainer.new calls).data_.length) ∧
      ¬ (1 ≤ data_size (runCalls PageContainer.new calls) ∧
        data_size (runCalls PageContainer.new calls) ≤ 9) := by
  have h : (runCalls PageContainer.new calls).data_ = [] ∨
      10 ≤ (runCalls PageContainer.new calls).data_.length := by
    apply runCalls_invariant (fun c => c.data_ = [] ∨ 10 ≤ c.data_.length)
    · intro c call hc
      rcases Call.run_data c call with h | h
      · rw [h]; exact hc
      · exact Or.inr h.2
    · exact Or.inl rfl
  refine ⟨h, ?_⟩
  unfold data_size
  rcases h with h | h
  · rw [h]; simp
  · omega

/-! ## What a successful pass leaves, and what `Reload` leaves alone -/

/-- C13: after `Load(io, t)` or `Reload(t)` has returned without throwing, `data_`
is exactly the list of the items parsed from the lines of the current
`raw_data_`, in line order, restricted to those with `score > t`; for `Load`
the current `raw_data_` is the list of lines of the input. -/
theorem C13_entries_are_filtered_projection (c : PageContainer) (io : String) (t : F32)
    (out : Outcome) (hcall : out = Load c io t ∨ out = Reload c t)
    (hok : out.thrown = none) :
    out.state.data_ = (out.state.raw_data_.map parseItem).filter (fun it => it.score.gt t) ∧
      (out = Load c io t → out.state.raw_data_ = readLines io) := by
  rcases hcall with rfl | rfl
  · by_cases hlen : (readLines io).length < kMinLines
    · rw [Load_small c io t hlen] at hok
      simp at hok
    · rw [Load_large c io t (Nat.not_lt.1 hlen)] at hok ⊢
      rw [parseAndCommit_ok _ _ _ hok]
      exact ⟨rfl, fun _ => rfl⟩
  · refine ⟨?_, fun h => ?_⟩
    · rw [Reload_eq] at hok ⊢
      rw [parseAndCommit_ok _ _ _ hok]
      rfl
    · rw [h] at hok ⊢
      by_cases hlen : (readLines io).length < kMinLines
      · rw [Load_small c io t hlen] at hok
        simp at hok
      · rw [Load_large c io t (Nat.not_lt.1 hlen)]
        exact (parseAndCommit_frame _ t _).1

/-- C13 at a successful `Load` of the eleven lines with threshold 0. -/
theorem C13_entries_are_filtered_projection_witness :
    (Load PageContainer.new elevenLines (F32.fin 0)).thrown = none ∧
      (Load PageContainer.new elevenLines (F32.fin 0)).state.data_ =
        ((Load PageContainer.new elevenLines (F32.fin 0)).state.raw_data_.map parseItem).filter
          (fun it => it.score.gt (F32.fin 0)) :=
  ⟨by decide!,
    (C13_entries_are_filtered_projection PageContainer.new elevenLines (F32.fin 0) _
      (Or.inl rfl) (by decide!)).1⟩

/-- C17: whether `Reload(t)` returns or throws, it leaves `raw_data_` and both
observer lists as they were, and none of the calls it makes is
`OnRawDataLoad`. -/
theorem C17_reload_frame (c : PageContainer) (t : F32) :
    (Reload c t).state.raw_data_ = c.raw_data_ ∧
      (Reload c t).state.list_observer1 = c.list_observer1 ∧
      (Reload c t).state.list_observer2 = c.list_observer2 ∧
      ∀ e ∈ (Reload c t).trace, Event.isRawDataLoad e = false := by
  rw [Reload_eq]
  obtain ⟨h1, h2, h3⟩ := parseAndCommit_frame c t []
  exact ⟨h1, h2, h3, parseAndCommit_no_raw c t⟩

/-! ## The notifications of a successful `Load` -/

theorem LoadTimed_events (c : PageContainer) (io : String) (t : F32) :
    (LoadTimed c io t).map Prod.fst = (Load c io t).trace := by
  unfold LoadTimed Load
  by_cases hlen : (readLines io).length < kMinLines
  · simp [hlen]
  · simp only [hlen, if_false]
    rw [parseLoop_trace c.list_observer2 t (readLines io) [] [] (List.map _ _)]
    generalize parseLoop c.list_observer2 t (readLines io) [] [] [] = r
    obtain ⟨d, skips⟩ := r
    cases d with
    | none => simp [Function.comp_def]
    | some data =>
      by_cases hl : data.length < kMinLines
      · simp [hl, Function.comp_def]
      · simp [hl, Function.comp_def]

theorem LoadTimed_states (c : PageContainer) (io : String) (t : F32) :
    ∀ p ∈ LoadTimed c io t,
      (Event.isRawDataLoad p.1 = true ∧ p.2 = c) ∨
        (Event.isRawDataLoad p.1 = false ∧ p.2 = { c with raw_data_ := readLines io }) := by
  have hskip : ∀ e ∈ (parseLoop c.list_observer2 t (readLines io) [] [] []).2,
      Event.isRawDataLoad e = false := by
    intro e he
    rcases parseLoop_events c.list_observer2 t (readLines io) [] [] [] e he with h | h
    · cases h
    · cases e <;> simp_all [Event.isSkip, Event.isRawDataLoad]
  intro p hp
  unfold LoadTimed at hp
  by_cases hlen : (readLines io).length < kMinLines
  · simp [hlen] at hp
  · simp only [hlen, if_false] at hp
    generalize parseLoop c.list_observer2 t (readLines io) [] [] [] = r at hp hskip
    obtain ⟨d, skips⟩ := r
    have hfirst : ∀ p ∈ c.list_observer1.map
        (fun o => (Event.OnRawDataLoad o c.raw_data_ (readLines io), c)),
        Event.isRawDataLoad p.1 = true ∧ p.2 = c := by
      intro p hp
      obtain ⟨o, _, rfl⟩ := List.mem_map.1 hp
      exact ⟨rfl, rfl⟩
    have hmid : ∀ p ∈ skips.map
        (fun e => (e, ({ c with raw_data_ := readLines io } : PageContainer))),
        Event.isRawDataLoad p.1 = false ∧ p.2 = { c with raw_data_ := readLines io } := by
      intro p hp
      obtain ⟨e, he, rfl⟩ := List.mem_map.1 hp
      exact ⟨hskip e he, rfl⟩
    cases d with
    | none =>
      rcases List.mem_append.1 hp with h | h
      · exact Or.inl (hfirst p h)
      · exact Or.inr (hmid p h)
    | some data =>
      by_cases hl : data.length < kMinLines
      · simp only [hl, if_true] at hp
        rcases List.mem_append.1 hp with h | h
        · exact Or.inl (hfirst p h)
        · exact Or.inr (hmid p h)
      · simp only [hl, if_false] at hp
        rcases List.mem_append.1 hp with h | h
        · rcases List.mem_append.1 h with h | h
          · rcases List.mem_append.1 h with h | h
            · exact Or.inl (hfirst p h)
            · exact Or.inr (hmid p h)
          · obtain ⟨o, _, rfl⟩ := List.mem_map.1 h
            exact Or.inr ⟨rfl, rfl⟩
        · obtain ⟨o, _, rfl⟩ := List.mem_map.1 h
          exact Or.inr ⟨rfl, rfl⟩

theorem precedes_of_append (P Q : Event → Bool) (front back : List Event)
    (hfront : ∀ e ∈ front, P e = false) (hback : ∀ e ∈ back, Q e = false)
    (i j : Nat) (e1 e2 : Event) (h1 : (front ++ back)[i]? = some e1) (h2 : (front ++ back)[j]? = some e2)
    (hP : P e1 = true) (hQ : Q e2 = true) : j < i := by
  have hi : front.length ≤ i := by
    by_contra hlt
    have hlt1 : i < front.length := Nat.lt_of_not_ge hlt
    rw [List.getElem?_append_left hlt1] at h1
    have hmem : e1 ∈ front := List.getElem?_mem h1
    rw [hfront e1 hmem] at hP
    cases hP
  have hj : j < front.length := by
    by_contra hge
    have hge1 : front.length ≤ j := Nat.le_of_not_lt hge
    rw [List.getElem?_append_right hge1] at h2
    have hmem : e2 ∈ back := List.getElem?_mem h2
    rw [hback e2 hmem] at hQ
    cases hQ
  omega

/-- C14: when `Load(io, t)` returns without throwing, the calls it makes are, in
this order, `OnRawDataLoad(old raw lines, lines of the input)` on every
`Observer1` in list order, then the `Skip` calls of the scan (for each
rejected line in line order, on every `Observer2` in list order), then
`OnDataLoad(old data_, new data_)` on every `Observer1` in list order, then
`OnLoaded(new data_)` on every `Observer2` in list order.  Every `OnDataLoad`
call comes before every `OnLoaded` call, and at each of the calls `data_`
still has its old value: it is replaced after the last of them. -/
theorem C14_load_notification_protocol (c : PageContainer) (io : String) (t : F32)
    (hok : (Load c io t).thrown = none) :
    (Load c io t).trace =
        c.list_observer1.map (fun o => Event.OnRawDataLoad o c.raw_data_ (readLines io))
          ++ (rejected t (readLines io)).flatMap (skipAll c.list_observer2)
          ++ c.list_observer1.map
              (fun o => Event.OnDataLoad o c.data_ (Load c io t).state.data_)
          ++ c.list_observer2.map (fun o => Event.OnLoaded o (Load c io t).state.data_) ∧
      (Load c io t).state.data_ = accepted t (readLines io) ∧
      (∀ (i j : Nat) (e1 e2 : Event), (Load c io t).trace[i]? = some e1 →
        (Load c io t).trace[j]? = some e2 → Event.isLoaded e1 = true →
        Event.isDataLoad e2 = true → j < i) ∧
      (LoadTimed c io t).map Prod.fst = (Load c io t).trace ∧
      (∀ p ∈ LoadTimed c io t, p.2.data_ = c.data_) := by
  have hlen : kMinLines ≤ (readLines io).length := by
    by_contra hlt
    rw [Load_small c io t (Nat.lt_of_not_ge hlt)] at hok
    simp at hok
  have hL := Load_large c io t hlen
  rw [hL] at hok
  have hpc := parseAndCommit_ok _ _ _ hok
  have htrace : (Load c io t).trace =
      c.list_observer1.map (fun o => Event.OnRawDataLoad o c.raw_data_ (readLines io))
        ++ (rejected t (readLines io)).flatMap (skipAll c.list_observer2)
        ++ c.list_observer1.map
            (fun o => Event.OnDataLoad o c.data_ (Load c io t).state.data_)
        ++ c.list_observer2.map (fun o => Event.OnLoaded o (Load c io t).state.data_) := by
    rw [hL, hpc]
  refine ⟨htrace, by rw [hL, hpc], ?_, LoadTimed_events c io t, ?_⟩
  · intro i j e1 e2 h1 h2 hP hQ
    rw [htrace] at h1 h2
    refine precedes_of_append Event.isLoaded Event.isDataLoad _ _ ?_ ?_ i j e1 e2 h1 h2 hP hQ
    · intro e he
      rcases List.mem_append.1 he with he | he
      · rcases List.mem_append.1 he with he | he
        · obtain ⟨o, _, rfl⟩ := List.mem_map.1 he
          rfl
        · obtain ⟨it, _, hit⟩ := List.mem_flatMap.1 he
          obtain ⟨o, _, rfl⟩ := List.mem_map.1 hit
          rfl
      · obtain ⟨o, _, rfl⟩ := List.mem_map.1 he
        rfl
    · intro e he
      obtain ⟨o, _, rfl⟩ := List.mem_map.1 he
      rfl
  · intro p hp
    rcases LoadTimed_states c io t p hp with h | h
    · rw [h.2]
    · rw [h.2]

/-- C14 at a successful `Load` of the eleven lines with threshold 0, on a
container with two observers of each kind. -/
theorem C14_load_notification_protocol_witness :
    (Load ⟨[1, 2], [3, 4], [], []⟩ elevenLines (F32.fin 0)).thrown = none ∧
      (Load ⟨[1, 2], [3, 4], [], []⟩ elevenLines (F32.fin 0)).state.data_
        = accepted (F32.fin 0) (readLines elevenLines) :=
  ⟨by decide!,
    (C14_load_notification_protocol ⟨[1, 2], [3, 4], [], []⟩ elevenLines (F32.fin 0)
      (by decide!)).2.1⟩

/-! ## Registration of observers -/

/-- C15, refuted as stated: attaching an observer that is already registered does
not leave the registry unchanged.  After two `Attach` calls with the same
pointer the list holds it twice, for either kind of observer, and a `Load`
then calls `OnRawDataLoad` on that `Observer1` twice. -/
theorem C15_counterexample :
    7 ∈ (Attach2 PageContainer.new 7).list_observer2 ∧
      (Attach2 (Attach2 PageContainer.new 7) 7).list_observer2 = [7, 7] ∧
      (Attach2 (Attach2 PageContainer.new 7) 7).list_observer2
        ≠ (Attach2 PageContainer.new 7).list_observer2 ∧
      ¬ (Attach2 (Attach2 PageContainer.new 7) 7).list_observer2.Nodup ∧
      (Attach1 (Attach1 PageContainer.new 5) 5).list_observer1 = [5, 5] ∧
      ((Load (Attach1 (Attach1 PageContainer.new 5) 5) tenLines (F32.fin 0)).trace.filter
        Event.isRawDataLoad).length = 2 := by
  decide!

/-- C15, amended: `Attach` appends the pointer to the end of the list whether or
not it is already there, so every `Attach(o)` raises the number of
occurrences of `o` by one and leaves the other list alone; and a round of
calls on a list goes to an observer as many times as it occurs in the
list. -/
theorem C15_attach_appends (c : PageContainer) (o : Nat) :
    (Attach1 c o).list_observer1 = c.list_observer1 ++ [o] ∧
      (Attach1 c o).list_observer1.count o = c.list_observer1.count o + 1 ∧
      (Attach2 c o).list_observer2 = c.list_observer2 ++ [o] ∧
      (Attach2 c o).list_observer2.count o = c.list_observer2.count o + 1 ∧
      (∀ (l2 : List Observer2) (item : Item),
        (skipAll l2 item).count (Event.Skip o item) = l2.count o) ∧
      (∀ (l2 : List Observer2) (data : List Item),
        (l2.map (fun p => Event.OnLoaded p data)).count (Event.OnLoaded o data) = l2.count o) ∧
      (∀ (l1 : List Observer1) (old new : List Item),
        (l1.map (fun p => Event.OnDataLoad p old new)).count (Event.OnDataLoad o old new)
          = l1.count o) ∧
      (∀ (l1 : List Observer1) (old new : List String),
        (l1.map (fun p => Event.OnRawDataLoad p old new)).count (Event.OnRawDataLoad o old new)
          = l1.count o) := by
  refine ⟨rfl, by simp [Attach1], rfl, by simp [Attach2], ?_, ?_, ?_, ?_⟩
  · intro l2 item
    exact List.count_map_of_injective l2 (fun p => Event.Skip p item)
      (fun a b h => by injection h) o
  · intro l2 data
    exact List.count_map_of_injective l2 (fun p => Event.OnLoaded p data)
      (fun a b h => by injection h) o
  · intro l1 old new
    exact List.count_map_of_injective l1 (fun p => Event.OnDataLoad p old new)
      (fun a b h => by injection h) o
  · intro l1 old new
    exact List.count_map_of_injective l1 (fun p => Event.OnRawDataLoad p old new)
      (fun a b h => by injection h) o

/-- C16: `Detach` of a pointer that is not in the list leaves the whole
container unchanged (there is nothing it could throw); `Detach(o)` after
`Attach(o)` of an `o` that was not in the list gives back the container as it
was, the list with its old contents and order; and `Attach` and `Detach` for
one kind of observer leave the list of the other kind, `raw_data_` and `data_`
unchanged. -/
theorem C16_detach_and_independence (c : PageContainer) (o : Nat) :
    (o ∉ c.list_observer1 → Detach1 c o = c) ∧
      (o ∉ c.list_observer2 → Detach2 c o = c) ∧
      (o ∉ c.list_observer1 → Detach1 (Attach1 c o) o = c) ∧
      (o ∉ c.list_observer2 → Detach2 (Attach2 c o) o = c) ∧
      ((Attach1 c o).list_observer2 = c.list_observer2 ∧
        (Detach1 c o).list_observer2 = c.list_observer2 ∧
        (Attach2 c o).list_observer1 = c.list_observer1 ∧
        (Detach2 c o).list_observer1 = c.list_observer1) ∧
      ((Attach1 c o).data_ = c.data_ ∧ (Attach1 c o).raw_data_ = c.raw_data_ ∧
        (Detach1 c o).data_ = c.data_ ∧ (Detach1 c o).raw_data_ = c.raw_data_ ∧
        (Attach2 c o).data_ = c.data_ ∧ (Attach2 c o).raw_data_ = c.raw_data_ ∧
        (Detach2 c o).data_ = c.data_ ∧ (Detach2 c o).raw_data_ = c.raw_data_) := by
  have hfilter : ∀ l : List Nat, o ∉ l → l.filter (fun p => p != o) = l := by
    intro l hl
    apply List.filter_eq_self.2
    intro a ha
    have : a ≠ o := fun h => hl (h ▸ ha)
    simpa using this
  refine ⟨?_, ?_, ?_, ?_, ⟨rfl, rfl, rfl, rfl⟩, ⟨rfl, rfl, rfl, rfl, rfl, rfl, rfl, rfl⟩⟩
  · intro h
    simp [Detach1, hfilter _ h]
  · intro h
    simp [Detach2, hfilter _ h]
  · intro h
    simp [Detach1, Attach1, List.filter_append, hfilter _ h]
  · intro h
    simp [Detach2, Attach2, List.filter_append, hfilter _ h]

/-! ## Splitting the input into lines -/

theorem readLinesFrom_eq_splitOn :
    ∀ (cs line : List Char),
      readLinesFrom cs line
        = ((cs.splitOn '\n').modifyHead (fun l => line ++ l)).map String.mk := by
  intro cs
  induction cs with
  | nil => intro line; simp [readLinesFrom, List.splitOn, List.splitOnP_nil]
  | cons c cs ih =>
    intro line
    by_cases hc : c = '\n'
    · subst hc
      have hid : ∀ ls : List (List Char), ls.modifyHead (fun l => l) = ls := by
        intro ls
        cases ls <;> rfl
      simp [readLinesFrom, List.splitOn, List.splitOnP_cons, ih [], hid]
    · have hc1 : (c == '\n') = false := by simpa using hc
      simp [readLinesFrom, List.splitOn, List.splitOnP_cons, hc, hc1, ih (line ++ [c]),
        Function.comp_def]

theorem readLinesFrom_length :
    ∀ (cs line : List Char), (readLinesFrom cs line).length = cs.count '\n' + 1 := by
  intro cs
  induction cs with
  | nil => intro line; simp [readLinesFrom]
  | cons c cs ih =>
    intro line
    by_cases hc : c = '\n'
    · subst hc
      simp [readLinesFrom, ih []]
    · have hc1 : (c == '\n') = false := by simpa using hc
      simp [readLinesFrom, hc, ih (line ++ [c]), List.count_cons, hc1]

theorem readLinesFrom_newline_end :
    ∀ (cs line : List Char),
      readLinesFrom (cs ++ ['\n']) line = readLinesFrom cs line ++ [""] := by
  intro cs
  induction cs with
  | nil => intro line; rfl
  | cons c cs ih =>
    intro line
    by_cases hc : c = '\n'
    · subst hc
      simp [readLinesFrom, ih []]
    · simp [readLinesFrom, hc, ih (line ++ [c])]

/-- C18: the vector `raw_data` that `Load` reads is the input split at every
newline character, so it has one element more than the input has newlines;
the empty input gives one empty line and an input that ends in a newline
gives a last line that is empty.  Hence `Load` of an input with exactly nine
newlines, such as nine records each ended by a newline, passes the check
against `kMinLines` and assigns the ten lines to `raw_data_`. -/
theorem C18_line_splitting (c : PageContainer) (io : String) (t : F32) :
    readLines io = splitAtNewlines io ∧
      (readLines io).length = io.data.count '\n' + 1 ∧
      readLines "" = [""] ∧
      readLines (io ++ "\n") = readLines io ++ [""] ∧
      (io.data.count '\n' = 9 →
        (Load c io t).thrown ≠ some "too small input stream" ∧
          (Load c io t).state.raw_data_ = readLines io) ∧
      nineRecords.data.count '\n' = 9 ∧
      (readLines nineRecords).length = 10 ∧
      (readLines nineRecords)[9]? = some "" ∧
      (Load c nineRecords t).state.raw_data_ = readLines nineRecords := by
  have hsplit : readLines io = splitAtNewlines io := by
    unfold readLines splitAtNewlines
    rw [readLinesFrom_eq_splitOn]
    have hid : (fun l : List Char => [] ++ l) = id := by funext l; simp
    rw [hid, List.modifyHead_id]
    rfl
  have hcommit : ∀ io1 : String, io1.data.count '\n' = 9 →
      (Load c io1 t).thrown ≠ some "too small input stream" ∧
        (Load c io1 t).state.raw_data_ = readLines io1 := by
    intro io1 h9
    have hlen : kMinLines ≤ (readLines io1).length := by
      unfold readLines
      rw [readLinesFrom_length, h9]
      decide
    rw [Load_large c io1 t hlen]
    refine ⟨?_, (parseAndCommit_frame _ t _).1⟩
    rcases parseAndCommit_thrown { c with raw_data_ := readLines io1 } t
      (c.list_observer1.map (fun o => Event.OnRawDataLoad o c.raw_data_ (readLines io1)))
      with h | h | h <;> rw [h] <;> decide
  refine ⟨hsplit, readLinesFrom_length io.data [], rfl, ?_, hcommit io, by decide, by decide,
    by decide, (hcommit nineRecords (by decide)).2⟩
  unfold readLines
  rw [String.data_append]
  exact readLinesFrom_newline_end io.data []

/-! ## The scan up to the first repeated id -/

theorem parseLoop_prefix (l2 : List Observer2) (t : F32) :
    ∀ (pre rest : List String) (data : List Item) (ids : List String) (tr : List Event),
      (lineIds pre).Nodup → (∀ x ∈ lineIds pre, x ∉ ids) →
      parseLoop l2 t (pre ++ rest) data ids tr
        = parseLoop l2 t rest (data ++ accepted t pre) ((lineIds pre).reverse ++ ids)
            (tr ++ (rejected t pre).flatMap (skipAll l2)) := by
  intro pre
  induction pre with
  | nil => intro rest data ids tr _ _; simp [lineIds, accepted, rejected]
  | cons line pre ih =>
    intro rest data ids tr hnd hdisj
    have hnd1 : (parseItem line).id ∉ lineIds pre ∧ (lineIds pre).Nodup := by
      simpa [lineIds] using hnd
    have hhead : (parseItem line).id ∉ ids := hdisj _ (by simp [lineIds])
    have hdisj1 : ∀ x ∈ lineIds pre, x ∉ (parseItem line).id :: ids := by
      intro x hx hmem
      rcases List.mem_cons.1 hmem with h | h
      · exact hnd1.1 (h ▸ hx)
      · exact hdisj x (by simp only [lineIds, List.map_cons, List.mem_cons]; exact Or.inr hx) h
    have hids : (lineIds (line :: pre)).reverse ++ ids
        = (lineIds pre).reverse ++ (parseItem line).id :: ids := by
      simp [lineIds]
    rw [hids]
    by_cases hgt : (parseItem line).score.gt t = true
    · simp [parseLoop, hhead, hgt, ih rest _ _ _ hnd1.2 hdisj1, accepted, rejected]
    · simp [parseLoop, hhead, hgt, ih rest _ _ _ hnd1.2 hdisj1, accepted, rejected]

theorem parseAndCommit_first_repeat (c : PageContainer) (t : F32) (tr : List Event)
    (pre : List String) (line : String) (post : List String)
    (hsplit : c.raw_data_ = pre ++ line :: post) (hpre : (lineIds pre).Nodup)
    (hrep : (parseItem line).id ∈ lineIds pre) :
    parseAndCommit c t tr =
      ⟨c, tr ++ (rejected t pre).flatMap (skipAll c.list_observer2), some "already seen"⟩ := by
  unfold parseAndCommit
  rw [hsplit, parseLoop_prefix c.list_observer2 t pre (line :: post) [] [] tr hpre (by simp)]
  simp [parseLoop, hrep]

theorem flatMap_replicate_one (o : Observer2) (items : List Item) :
    items.flatMap (fun it => List.replicate 1 (Event.Skip o it)) = items.map (Event.Skip o) := by
  induction items with
  | nil => rfl
  | cons x xs ih =>
    simp only [List.flatMap_cons, List.map_cons, ih]
    rfl

/-- C20, refuted as stated: in the twelve lines the id `ida` of the first line
occurs a second time on the fourth line, but the scan has already ended on
the third line, which repeats `idb`; with all scores below the threshold the
registered `Observer2` has been called with `Skip` for the first two lines
only, not for the three rejected lines before the fourth. -/
theorem C20_counterexample :
    (readLines twoRepeatsLines)[0]? = some "ida na 1" ∧
      (readLines twoRepeatsLines)[3]? = some "ida nd 1" ∧
      (parseItem "ida na 1").id = (parseItem "ida nd 1").id ∧
      (Load (Attach2 PageContainer.new 7) twoRepeatsLines (F32.fin 5)).thrown
        = some "already seen" ∧
      callsOn2 7 (Load (Attach2 PageContainer.new 7) twoRepeatsLines (F32.fin 5)).trace
        = [Event.Skip 7 ⟨"ida", "na", F32.fin 1⟩, Event.Skip 7 ⟨"idb", "nb", F32.fin 1⟩] ∧
      (rejected (F32.fin 5) ((readLines twoRepeatsLines).take 3)).map (Event.Skip 7)
        = [Event.Skip 7 ⟨"ida", "na", F32.fin 1⟩, Event.Skip 7 ⟨"idb", "nb", F32.fin 1⟩,
            Event.Skip 7 ⟨"idb", "nc", F32.fin 1⟩] ∧
      callsOn2 7 (Load (Attach2 PageContainer.new 7) twoRepeatsLines (F32.fin 5)).trace
        ≠ (rejected (F32.fin 5) ((readLines twoRepeatsLines).take 3)).map (Event.Skip 7) := by
  decide!

/-- C20, amended: let `line` be the first raw line whose id already occurred on
an earlier line, so that the lines `pre` before it have pairwise distinct
ids.  Then the pass of `Load` or `Reload` throws "already seen" whatever the
scores are, `data_` keeps its value, and the `Skip` calls made are exactly
those for the rejected lines of `pre`, in line order, each to every entry of
the `Observer2` list in list order: none for `line` or a later line.  No
`OnDataLoad` and no `OnLoaded` is delivered.  An `Observer2` that is in the
list once has received exactly one `Skip` per rejected line of `pre`, in line
order, and nothing else. -/
theorem C20_scan_stops_at_first_repeated_id (c : PageContainer) (t : F32)
    (lines : List String) (out : Outcome) (pre : List String) (line : String)
    (post : List String)
    (hcall : (out = Reload c t ∧ lines = c.raw_data_) ∨
      (∃ io, out = Load c io t ∧ lines = readLines io ∧ 10 ≤ lines.length))
    (hsplit : lines = pre ++ line :: post) (hpre : (lineIds pre).Nodup)
    (hrep : (parseItem line).id ∈ lineIds pre) :
    out.thrown = some "already seen" ∧
      out.state.data_ = c.data_ ∧
      out.trace.filter Event.isSkip = (rejected t pre).flatMap (skipAll c.list_observer2) ∧
      (∀ e ∈ out.trace, Event.isLoaded e = false ∧ Event.isDataLoad e = false) ∧
      (∀ o : Observer2, callsOn2 o out.trace =
        (rejected t pre).flatMap
          (fun it => List.replicate (c.list_observer2.count o) (Event.Skip o it))) ∧
      (∀ o : Observer2, c.list_observer2.count o = 1 →
        callsOn2 o out.trace = (rejected t pre).map (Event.Skip o)) := by
  have hskips : ∀ e ∈ (rejected t pre).flatMap (skipAll c.list_observer2),
      Event.isLoaded e = false ∧ Event.isDataLoad e = false := by
    intro e he
    obtain ⟨it, _, hit⟩ := List.mem_flatMap.1 he
    obtain ⟨o, _, rfl⟩ := List.mem_map.1 hit
    exact ⟨rfl, rfl⟩
  have key : ∃ raw : List Event,
      (∀ e ∈ raw, Event.isRawDataLoad e = true) ∧
      out = ⟨{ c with raw_data_ := lines },
        raw ++ (rejected t pre).flatMap (skipAll c.list_observer2), some "already seen"⟩ := by
    rcases hcall with ⟨rfl, rfl⟩ | ⟨io, rfl, rfl, hlen⟩
    · refine ⟨[], by simp, ?_⟩
      rw [Reload_eq, parseAndCommit_first_repeat c t [] pre line post hsplit hpre hrep]
    · refine ⟨c.list_observer1.map (fun o => Event.OnRawDataLoad o c.raw_data_ (readLines io)),
        ?_, ?_⟩
      · intro e he
        obtain ⟨o, _, rfl⟩ := List.mem_map.1 he
        rfl
      · rw [Load_large c io t hlen,
          parseAndCommit_first_repeat _ t _ pre line post hsplit hpre hrep]
  obtain ⟨raw, hraw, rfl⟩ := key
  have hrawSkip : raw.filter Event.isSkip = [] := by
    apply List.filter_eq_nil_iff.2
    intro e he
    have := hraw e he
    cases e <;> simp_all [Event.isSkip, Event.isRawDataLoad]
  have hrawCalls : ∀ o : Observer2, callsOn2 o raw = [] := by
    intro o
    apply List.filter_eq_nil_iff.2
    intro e he
    have := hraw e he
    cases e <;> simp_all [Event.isRawDataLoad]
  have hall : ∀ o : Observer2,
      callsOn2 o (raw ++ (rejected t pre).flatMap (skipAll c.list_observer2)) =
        (rejected t pre).flatMap
          (fun it => List.replicate (c.list_observer2.count o) (Event.Skip o it)) := by
    intro o
    rw [callsOn2_append, hrawCalls o, callsOn2_skips]
    rfl
  refine ⟨rfl, rfl, ?_, ?_, hall, ?_⟩
  · simp only [List.filter_append, hrawSkip, List.nil_append]
    exact filter_isSkip_skips c.list_observer2 _
  · intro e he
    rcases List.mem_append.1 he with he | he
    · have := hraw e he
      cases e <;> simp_all [Event.isLoaded, Event.isDataLoad, Event.isRawDataLoad]
    · exact hskips e he
  · intro o hone
    have h := hall o
    rw [hone, flatMap_replicate_one] at h
    exact h

/-- C20 at the ten sample lines followed by a line repeating `id3`, with a
threshold above all scores. -/
theorem C20_scan_stops_at_first_repeated_id_witness :
    (Load (Attach2 PageContainer.new 7) repeatedIdLines (F32.fin 100)).thrown
        = some "already seen" ∧
      callsOn2 7 (Load (Attach2 PageContainer.new 7) repeatedIdLines (F32.fin 100)).trace
        = (rejected (F32.fin 100) (readLines tenLines)).map (Event.Skip 7) :=
  ⟨(C20_scan_stops_at_first_repeated_id (Attach2 PageContainer.new 7) (F32.fin 100)
      (readLines repeatedIdLines)
      (Load (Attach2 PageContainer.new 7) repeatedIdLines (F32.fin 100))
      (readLines tenLines) "id3 other 7.5" []
      (Or.inr ⟨repeatedIdLines, rfl, rfl, by decide⟩) (by decide) (by decide) (by decide)).1,
    (C20_scan_stops_at_first_repeated_id (Attach2 PageContainer.new 7) (F32.fin 100)
      (readLines repeatedIdLines)
      (Load (Attach2 PageContainer.new 7) repeatedIdLines (F32.fin 100))
      (readLines tenLines) "id3 other 7.5" []
      (Or.inr ⟨repeatedIdLines, rfl, rfl, by decide⟩) (by decide) (by decide)
      (by decide)).2.2.2.2.2 7 (by decide)⟩

end PageContainerSpec
